import Mathlib

/-!
Shallow embedding of the GDL game engine (src/game.py) and verification of
the frozen claims about it.

Conventions of the embedding:
* Python strings are Lean `String`s; the engine's string scanning
  (`find`, `rfind`, slicing, `strip`, splitting) is mirrored by the helpers
  below, working on `List Char`.
* Machine integers are `Int` (Python ints are unbounded, so no wrap-around).
  Python `//` is `Int.fdiv` and `%` is `Int.fmod` (both floor-style, matching
  Python's sign conventions).
* Mutable objects are identified the way Python identity works out in this
  program: entities by their unique `id`, players and zones by their unique
  `name`.  The single mutable `GameState` is threaded explicitly; the values
  `Value.vstate` and `Value.vboard` act as the aliases `context["state"]` and
  `context["board"]` hold in the source, reads and writes through them go to
  the threaded state, which preserves the source's aliasing behaviour.
* Python exceptions unrelated to the claims (e.g. `TypeError` from adding a
  string to an int) are modelled by harmless default results; every such spot
  carries a comment.  Nontermination is modelled with fuel.
* Randomness (`random.shuffle`, `random.randint`) is modelled by an oracle
  tape `rng` carried in the state; it is not part of the game state proper
  (players/entities/board/zones/variables), matching the source where the RNG
  is module-global.
-/

set_option autoImplicit false

namespace GDL

/-- Single-quote character, written via its code point. -/
def sq : Char := Char.ofNat 39

/-- Single-quote as a one-character string. -/
def sqs : String := String.mk [sq]

/-- Python `str.strip()` on a character list: drop whitespace at both ends. -/
def stripChars (cs : List Char) : List Char :=
  ((cs.dropWhile Char.isWhitespace).reverse.dropWhile Char.isWhitespace).reverse

/-- Python `str.strip()`. -/
def pyStrip (s : String) : String := String.mk (stripChars s.data)

/-- Python `c in s` for a single character. -/
def containsChar (s : String) (c : Char) : Bool := s.data.contains c

/-- Index of the first occurrence of a character, Python `str.find` (None for -1). -/
def firstIdx (s : String) (c : Char) : Option Nat := s.data.indexOf? c

/-- Index of the last occurrence of a character, Python `str.rfind` (None for -1). -/
def lastIdx (s : String) (c : Char) : Option Nat :=
  match (s.data.reverse.indexOf? c) with
  | none => none
  | some i => some (s.data.length - 1 - i)

/-- Python slice `s[a:b]` with non-negative clamped bounds. -/
def pySlice (s : String) (a b : Nat) : String := String.mk ((s.data.take b).drop a)

/-- Python slice `s[a:]`. -/
def pyDrop (s : String) (a : Nat) : String := String.mk (s.data.drop a)

/-- Python `needle in hay` substring test. -/
def isSubstr (needle hay : String) : Bool :=
  (List.range (hay.data.length + 1)).any fun i => needle.data.isPrefixOf (hay.data.drop i)

/-- Python `s.startswith(pre)` (the core `String.startsWith` is opaque to
kernel reduction, so the character-list version is used throughout). -/
def startsWithS (s pre : String) : Bool := pre.data.isPrefixOf s.data

/-- Python `s.endswith(suf)`. -/
def endsWithS (s suf : String) : Bool := suf.data.isSuffixOf s.data

/-- Python `s.lower()` (ASCII as used by zone names). -/
def toLowerS (s : String) : String := String.mk (s.data.map Char.toLower)

/-- Python `s.split(".")`: split at every dot, keeping empty pieces. -/
def splitDots (s : String) : List String :=
  go s.data []
where
  go : List Char → List Char → List String
    | [], cur => [String.mk cur.reverse]
    | c :: rest, cur =>
      if c == '.' then String.mk cur.reverse :: go rest [] else go rest (c :: cur)

/-- Python `s.replace("#", r)`: replace every occurrence. -/
def replaceHash (s r : String) : String :=
  String.mk (s.data.foldr (fun c acc => if c == '#' then r.data ++ acc else c :: acc) [])

/-- Decimal digits of a character run to a number, `none` when empty or non-digit. -/
def digitsToNat : List Char → Option Nat
  | [] => none
  | cs =>
    if cs.all Char.isDigit then
      some (cs.foldl (fun n c => n * 10 + (c.toNat - 48)) 0)
    else none

/-- Python `int(s)` on an already-stripped string: optional sign then digits.
(Underscore digit separators, accepted by Python, are not modelled.) -/
def pyInt (s : String) : Option Int :=
  match s.data with
  | '-' :: rest => (digitsToNat rest).map fun n => -(n : Int)
  | '+' :: rest => (digitsToNat rest).map fun n => (n : Int)
  | cs => (digitsToNat cs).map fun n => (n : Int)

theorem dropWhileLenLe (p : Char → Bool) (l : List Char) :
    (l.dropWhile p).length ≤ l.length := by
  induction l with
  | nil => simp [List.dropWhile]
  | cons c rest ih =>
    by_cases h : p c
    · simp only [List.dropWhile, h]
      exact Nat.le_succ_of_le ih
    · simp [List.dropWhile, h]

/-- All maximal runs of digits in a string, as numbers: Python `re.findall(r"\d+", s)`. -/
def digitRuns (cs : List Char) : List Nat :=
  match cs with
  | [] => []
  | c :: rest =>
    if c.isDigit then
      let run := (c :: rest).takeWhile Char.isDigit
      let rest2 := rest.dropWhile Char.isDigit
      match digitsToNat run with
      | some n => n :: digitRuns rest2
      | none => digitRuns rest2
    else digitRuns rest
termination_by cs.length
decreasing_by
  all_goals simp
  all_goals exact Nat.lt_succ_of_le (dropWhileLenLe _ _)

/-- Runtime values of the expression language: the Python values the evaluator
produces and consumes.  `vtuple` is a Python tuple (coordinates), `vlist` a
list, `vdict` a dict (key/value pairs in insertion order).  `ventity`,
`vplayer` and `vzone` are references to mutable engine objects, identified by
id resp. unique name.  `vboard` and `vstate` are the aliases of
`game_state.board` and the game state itself that evaluation contexts hold.
Float literals are unreachable in the source evaluator (any non-quoted
expression containing a dot is routed to property access first), so floats
are not modelled. -/
inductive Value where
  | vnull
  | vbool (b : Bool)
  | vint (n : Int)
  | vstr (s : String)
  | vtuple (xs : List Value)
  | vlist (xs : List Value)
  | vdict (m : List (Value × Value))
  | ventity (id : Nat)
  | vplayer (name : String)
  | vzone (name : String)
  | vboard
  | vstate
deriving Repr, Inhabited

mutual

/-- Python `==` on runtime values.  Booleans compare equal to the ints 0/1 as
in Python; entities, players and zones compare by identity, which this
program realises as id/name equality.  Dict comparison is modelled in
insertion order (Python compares dicts unordered; the dicts this engine
compares are coordinate dicts built in a fixed x,y order, where the two
notions coincide). -/
def pyEq : Value → Value → Bool
  | .vnull, .vnull => true
  | .vbool a, .vbool b => a == b
  | .vbool a, .vint n => (if a then (1 : Int) else 0) == n
  | .vint n, .vbool a => n == (if a then (1 : Int) else 0)
  | .vint a, .vint b => a == b
  | .vstr a, .vstr b => a == b
  | .vtuple xs, .vtuple ys => pyEqList xs ys
  | .vlist xs, .vlist ys => pyEqList xs ys
  | .vdict xs, .vdict ys => pyEqPairs xs ys
  | .ventity a, .ventity b => a == b
  | .vplayer a, .vplayer b => a == b
  | .vzone a, .vzone b => a == b
  | .vboard, .vboard => true
  | .vstate, .vstate => true
  | _, _ => false

def pyEqList : List Value → List Value → Bool
  | [], [] => true
  | x :: xs, y :: ys => pyEq x y && pyEqList xs ys
  | _, _ => false

def pyEqPairs : List (Value × Value) → List (Value × Value) → Bool
  | [], [] => true
  | (k1, v1) :: xs, (k2, v2) :: ys => pyEq k1 k2 && pyEq v1 v2 && pyEqPairs xs ys
  | _, _ => false

end

/-- Lookup in a Python dict modelled as an assoc list (keys unique). -/
def dictGet (m : List (Value × Value)) (k : Value) : Option Value :=
  match m with
  | [] => none
  | (k1, v) :: rest => if pyEq k1 k then some v else dictGet rest k

/-- Python `d[k] = v` on a dict: overwrite in place or append. -/
def dictSet (m : List (Value × Value)) (k v : Value) : List (Value × Value) :=
  match m with
  | [] => [(k, v)]
  | (k1, v1) :: rest =>
    if pyEq k1 k then (k1, v) :: rest else (k1, v1) :: dictSet rest k v

/-- Python `d.pop(k, None)`: remove the key if present. -/
def dictDel (m : List (Value × Value)) (k : Value) : List (Value × Value) :=
  match m with
  | [] => []
  | (k1, v1) :: rest => if pyEq k1 k then rest else (k1, v1) :: dictDel rest k

/-- Lookup in a string-keyed assoc list (first match, keys unique in use). -/
def assocGet {α : Type} (m : List (String × α)) (k : String) : Option α :=
  match m with
  | [] => none
  | (k1, v) :: rest => if k1 == k then some v else assocGet rest k

/-- Update the value at a key in place, no-op when absent. -/
def assocUpdate {α : Type} (m : List (String × α)) (k : String) (f : α → α) :
    List (String × α) :=
  match m with
  | [] => []
  | (k1, v) :: rest =>
    if k1 == k then (k1, f v) :: rest else (k1, v) :: assocUpdate rest k f

/-- Python dict assignment on a string-keyed assoc list: overwrite or append. -/
def assocSet {α : Type} (m : List (String × α)) (k : String) (v : α) :
    List (String × α) :=
  match m with
  | [] => [(k, v)]
  | (k1, v1) :: rest =>
    if k1 == k then (k1, v) :: rest else (k1, v1) :: assocSet rest k v

/-- Python `del d[k]` on a string-keyed assoc list. -/
def assocDel {α : Type} (m : List (String × α)) (k : String) : List (String × α) :=
  match m with
  | [] => []
  | (k1, v1) :: rest => if k1 == k then rest else (k1, v1) :: assocDel rest k

/-- An `Entity` (src/game.py class Entity): the id lives as the key of the
entities table; `rank` defaults to the string "man"; further attributes set
by `setattr` live in `attrs`. -/
structure Entity where
  schema : Value
  owner : Value
  rank : Value
  pos : Value
  attrs : List (String × Value)
deriving Repr, Inhabited

/-- A `Player` (class Player): identity is the unique `name`; spec-declared
attributes are `setattr`-ed onto the object, modelled by `attrs`. -/
structure Player where
  attrs : List (String × Value)
deriving Repr, Inhabited

/-- A `Zone` (class Zone): `entities` is the ordered list of member entity
ids (the Python list holds the entity objects themselves; objects are
identified by id). -/
structure Zone where
  zname : Value
  ztype : Value
  owner : Value
  visible : Value
  ordered : Value
  visibleTo : Value
  entities : List Nat
deriving Repr, Inhabited

/-- The `GameState` (class GameState).  `stateVars` are the dynamically
`setattr`-ed state variables (e.g. `turn_direction`).  `nextId` models the
global `Entity._id_counter`; `rng` is the oracle tape standing in for the
module-global random number generator. -/
structure GameState where
  players : List (String × Player)
  entities : List (Nat × Entity)
  board : List (Value × Value)
  zones : List (String × Zone)
  currentPlayer : Value
  currentPhase : Value
  topology : List (String × Value)
  stateVars : List (String × Value)
  nextId : Nat
  rng : List Nat
deriving Repr, Inhabited

/-- Lookup in the entities table (first match; ids are unique keys). -/
def entLookup : List (Nat × Entity) → Nat → Option Entity
  | [], _ => none
  | (k, e) :: rest, i => if k == i then some e else entLookup rest i

/-- Update the entities table at a key in place, no-op when absent. -/
def entUpdate (m : List (Nat × Entity)) (i : Nat) (f : Entity → Entity) :
    List (Nat × Entity) :=
  match m with
  | [] => []
  | (k, e) :: rest => if k == i then (k, f e) :: rest else (k, e) :: entUpdate rest i f

/-- Lookup an entity by id in the entities table. -/
def lookupEntity (st : GameState) (id : Nat) : Option Entity := entLookup st.entities id

/-- Lookup a zone by name. -/
def lookupZone (st : GameState) (n : String) : Option Zone := assocGet st.zones n

/-- Lookup a player by name. -/
def lookupPlayer (st : GameState) (n : String) : Option Player := assocGet st.players n

/-- Update an entity in the entities table in place. -/
def updateEntity (st : GameState) (id : Nat) (f : Entity → Entity) : GameState :=
  { st with entities := entUpdate st.entities id f }

/-- Update a zone in place. -/
def updateZone (st : GameState) (n : String) (f : Zone → Zone) : GameState :=
  { st with zones := assocUpdate st.zones n f }

/-- Python `state.board.get(key)`, `None` when absent. -/
def boardGetV (st : GameState) (k : Value) : Value := (dictGet st.board k).getD .vnull

/-- Check for the Python value `None`. -/
def isNull : Value → Bool
  | .vnull => true
  | _ => false

/-- Python truthiness of a runtime value.  Containers are truthy when
non-empty; object references are truthy; `vboard` is the board dict, truthy
when the board is non-empty. -/
def truthy (st : GameState) : Value → Bool
  | .vnull => false
  | .vbool b => b
  | .vint n => n != 0
  | .vstr s => s != ""
  | .vtuple xs => !xs.isEmpty
  | .vlist xs => !xs.isEmpty
  | .vdict m => !m.isEmpty
  | .ventity _ => true
  | .vplayer _ => true
  | .vzone _ => true
  | .vboard => !st.board.isEmpty
  | .vstate => true

/-- Python `getattr(obj, p)` guarded by `hasattr`: `some` when the attribute
exists.  Entities/players/zones/the state expose their fields and their
`setattr`-ed bags.  Built-in attributes of Python dicts/lists/ints (methods,
`int.real`, ...) are not modelled: expressions in game specifications do not
use them. -/
def pyGetAttr (st : GameState) (obj : Value) (p : String) : Option Value :=
  match obj with
  | .ventity id =>
    match lookupEntity st id with
    | some e =>
      if p == "id" then some (.vint id)
      else if p == "schema" then some e.schema
      else if p == "owner" then some e.owner
      else if p == "rank" then some e.rank
      else if p == "pos" then some e.pos
      else assocGet e.attrs p
    | none => none
  | .vplayer n =>
    match lookupPlayer st n with
    | some pl =>
      if p == "name" then some (.vstr n)
      else if p == "attributes" then
        some (.vdict (pl.attrs.map fun kv => (.vstr kv.1, kv.2)))
      else assocGet pl.attrs p
    | none => none
  | .vzone n =>
    match lookupZone st n with
    | some z =>
      if p == "name" then some z.zname
      else if p == "type" then some z.ztype
      else if p == "owner" then some z.owner
      else if p == "visible" then some z.visible
      else if p == "ordered" then some z.ordered
      else if p == "visible_to" then some z.visibleTo
      else if p == "entities" then some (.vlist (z.entities.map .ventity))
      else none
    | none => none
  | .vstate =>
    if p == "players" then
      some (.vdict (st.players.map fun kv => (.vstr kv.1, .vplayer kv.1)))
    else if p == "entities" then
      some (.vdict (st.entities.map fun kv => (.vint kv.1, .ventity kv.1)))
    else if p == "board" then some .vboard
    else if p == "zones" then
      some (.vdict (st.zones.map fun kv => (.vstr kv.1, .vzone kv.1)))
    else if p == "current_player" then some st.currentPlayer
    else if p == "current_phase" then some st.currentPhase
    else if p == "topology" then
      some (.vdict (st.topology.map fun kv => (.vstr kv.1, kv.2)))
    else assocGet st.stateVars p
  | _ => none

/-- The property-chain walk of `_get_property`: for each dotted segment,
`hasattr`/`getattr`, falling back to dict lookup for dicts (and the board
dict), otherwise the source returns `None`. -/
def walkProps (st : GameState) (obj : Value) : List String → Value
  | [] => obj
  | p :: rest =>
    if isNull obj then .vnull
    else
      match pyGetAttr st obj p with
      | some v => walkProps st v rest
      | none =>
        match obj with
        | .vdict m => walkProps st ((dictGet m (.vstr p)).getD .vnull) rest
        | .vboard => walkProps st (boardGetV st (.vstr p)) rest
        | _ => .vnull

/-- Python `1 if t > s else -1` sign delta of the `path_clear` builtin. -/
def signTo (a b : Int) : Int := if b = a then 0 else if b > a then 1 else -1

/-- The `while (current_x, current_y) != target` loop of `path_clear`,
with fuel standing in for the source's unbounded iteration: `none` means the
loop has not terminated within the given fuel. -/
def pathStep (st : GameState) (tx ty dx dy : Int) : Nat → Int → Int → Option Bool
  | 0, _, _ => none
  | f + 1, cx, cy =>
    if cx == tx && cy == ty then some true
    else if !(isNull (boardGetV st (.vtuple [.vint cx, .vint cy]))) then some false
    else pathStep st tx ty dx dy f (cx + dx) (cy + dy)

/-- The builtin `path_clear` on resolved integer coordinates: sign deltas,
then the scan from `start + d` (exclusive endpoints). -/
def pathClearFuel (fuel : Nat) (st : GameState) (sx sy tx ty : Int) : Option Bool :=
  pathStep st tx ty (signTo sx tx) (signTo sy ty) fuel (sx + signTo sx tx) (sy + signTo sy ty)

/-- Fisher-Yates-style shuffle driven by the oracle tape: `random.shuffle`
produces some permutation chosen by the RNG; the permutation is selected here
by the tape indices, and the consumed tape is returned. -/
def tapeShuffle {α : Type} (tape : List Nat) (xs : List α) : List α × List Nat :=
  match tape, xs with
  | t, [] => ([], t)
  | [], l => (l, [])
  | t :: ts, x :: rest =>
    let l := x :: rest
    let i := t % l.length
    let chosen := l.getD i x
    let (perm, tape2) := tapeShuffle ts (l.eraseIdx i)
    (chosen :: perm, tape2)
termination_by xs.length
decreasing_by
  simp [List.length_eraseIdx, Nat.mod_lt]

/-- One conditional head-to-tail transfer: `if from.entities: card =
from.entities.pop(0); to.entities.append(card); card.pos = to`.  Threading
the state through the two zone updates reproduces Python aliasing when the
two zones are the same object. -/
def transferHead (st : GameState) (src dst : String) : GameState :=
  match lookupZone st src with
  | none => st
  | some z =>
    match z.entities with
    | [] => st
    | h :: t =>
      let st1 := updateZone st src fun z2 => { z2 with entities := t }
      let st2 := updateZone st1 dst fun z2 => { z2 with entities := z2.entities ++ [h] }
      updateEntity st2 h fun e => { e with pos := .vzone dst }

/-- The `for _ in range(m)` transfer loop shared by the `draw_card` builtin
and the `draw_cards` effect; returns the moved entity ids in draw order. -/
def drawLoop (st : GameState) (src dst : String) : Nat → GameState × List Nat
  | 0 => (st, [])
  | k + 1 =>
    match lookupZone st src with
    | none => (st, [])
    | some z =>
      match z.entities with
      | [] => drawLoop st src dst k
      | h :: _ =>
        let st2 := transferHead st src dst
        let (st3, rest) := drawLoop st2 src dst k
        (st3, h :: rest)

mutual

/-- Python `str(v)` as used by the `concat` builtin.  Entity/zone/player
reprs are reproduced for string-valued attributes; `str` of values that do
not occur in concatenations in practice is approximated (commented). -/
def pyStr (st : GameState) : Value → String
  | .vnull => "None"
  | .vbool b => if b then "True" else "False"
  | .vint n => toString n
  | .vstr s => s
  | .vtuple xs => "(" ++ pyStrJoin st xs ++ ")"
  | .vlist xs => "[" ++ pyStrJoin st xs ++ "]"
  | .vdict m => "\x7b" ++ pyStrPairs st m ++ "\x7d"
  | .ventity id =>
    match lookupEntity st id with
    | some e =>
      match assocGet e.attrs "color", e.rank with
      | some (.vstr c), .vstr r => "Entity(id=" ++ toString id ++ ", " ++ c ++ "-" ++ r ++ ")"
      | _, _ =>
        match e.schema with
        | .vstr s => "Entity(id=" ++ toString id ++ ", schema=" ++ s ++ ")"
        | _ => "Entity(id=" ++ toString id ++ ")"
    | none => "Entity(id=" ++ toString id ++ ")"
  | .vplayer n => "Player(" ++ n ++ ")"
  | .vzone n =>
    match lookupZone st n with
    | some z => "Zone(" ++ n ++ ", " ++ toString z.entities.length ++ " entities)"
    | none => "Zone(" ++ n ++ ")"
  | .vboard => "\x7b...\x7d"
  | .vstate => "<GameState>"

def pyStrJoin (st : GameState) : List Value → String
  | [] => ""
  | [x] => pyStr st x
  | x :: y :: rest => pyStr st x ++ ", " ++ pyStrJoin st (y :: rest)

def pyStrPairs (st : GameState) : List (Value × Value) → String
  | [] => ""
  | [(k, v)] => pyStr st k ++ ": " ++ pyStr st v
  | (k, v) :: p :: rest => pyStr st k ++ ": " ++ pyStr st v ++ ", " ++ pyStrPairs st (p :: rest)

end

/-- Numeric view of a value: Python treats bools as ints.  `none` for
non-numeric values (arithmetic on them raises in Python). -/
def asInt : Value → Option Int
  | .vint n => some n
  | .vbool b => some (if b then 1 else 0)
  | _ => none

/-- Python ordering comparison; `none` when the comparison would raise
`TypeError` (mixed or non-ordered types; list/tuple lexicographic comparison
is not used by game specs and is not modelled). -/
def pyCompare : Value → Value → Option Ordering
  | a, b =>
    match asInt a, asInt b with
    | some x, some y => some (compare x y)
    | _, _ =>
      match a, b with
      | .vstr x, .vstr y => some (compare x y)
      | _, _ => none

/-- Python `a + b` for the `add` builtin: numeric addition, string and
sequence concatenation.  Other operand combinations raise `TypeError` in
Python; modelled as null. -/
def pyAdd (a b : Value) : Value :=
  match asInt a, asInt b with
  | some x, some y => .vint (x + y)
  | _, _ =>
    match a, b with
    | .vstr x, .vstr y => .vstr (x ++ y)
    | .vlist x, .vlist y => .vlist (x ++ y)
    | .vtuple x, .vtuple y => .vtuple (x ++ y)
    | _, _ => .vnull

/-- Coordinate view used by `mid_pos` and `path_clear`: a dict is converted
via its `x`/`y` entries, tuples and lists by position.  `none` covers the
argument shapes on which the Python code raises (missing keys, non-integer
components). -/
def coordOf (v : Value) : Option (Int × Int) :=
  match v with
  | .vdict m =>
    match dictGet m (.vstr "x"), dictGet m (.vstr "y") with
    | some (.vint x), some (.vint y) => some (x, y)
    | _, _ => none
  | .vtuple xs =>
    match xs.get? 0, xs.get? 1 with
    | some (.vint x), some (.vint y) => some (x, y)
    | _, _ => none
  | .vlist xs =>
    match xs.get? 0, xs.get? 1 with
    | some (.vint x), some (.vint y) => some (x, y)
    | _, _ => none
  | _ => none

/-- Result of one evaluation step: the value, the threaded state, and
whether an effectful builtin (`shuffle` or `draw_card`) was invoked. -/
structure EvalRes where
  val : Value
  st : GameState
  eff : Bool
deriving Repr

/-- The builtin dispatch `_call_function` (src/game.py lines 202-350).
`pf` is the fuel handed to `path_clear`, whose source loop can diverge.
Spots where Python would raise on malformed arguments, and the treatment of
randomness, carry comments at the relevant branch. -/
def callFunction (pf : Nat) (st : GameState) (fname : String) (args : List Value) : EvalRes :=
  match fname with
  | "eq" =>
    ⟨if args.length == 2 then .vbool (pyEq (args.getD 0 .vnull) (args.getD 1 .vnull))
      else .vbool false, st, false⟩
  | "ne" =>
    ⟨if args.length == 2 then .vbool (!pyEq (args.getD 0 .vnull) (args.getD 1 .vnull))
      else .vbool false, st, false⟩
  | "gt" =>
    ⟨if args.length == 2 && !isNull (args.getD 0 .vnull) && !isNull (args.getD 1 .vnull) then
        -- non-comparable operands raise TypeError in Python; modelled false
        .vbool (pyCompare (args.getD 0 .vnull) (args.getD 1 .vnull) == some .gt)
      else .vbool false, st, false⟩
  | "lt" =>
    ⟨if args.length == 2 && !isNull (args.getD 0 .vnull) && !isNull (args.getD 1 .vnull) then
        .vbool (pyCompare (args.getD 0 .vnull) (args.getD 1 .vnull) == some .lt)
      else .vbool false, st, false⟩
  | "gte" =>
    ⟨if args.length == 2 && !isNull (args.getD 0 .vnull) && !isNull (args.getD 1 .vnull) then
        .vbool (pyCompare (args.getD 0 .vnull) (args.getD 1 .vnull) != some .lt &&
          (pyCompare (args.getD 0 .vnull) (args.getD 1 .vnull)).isSome)
      else .vbool false, st, false⟩
  | "lte" =>
    ⟨if args.length == 2 && !isNull (args.getD 0 .vnull) && !isNull (args.getD 1 .vnull) then
        .vbool (pyCompare (args.getD 0 .vnull) (args.getD 1 .vnull) != some .gt &&
          (pyCompare (args.getD 0 .vnull) (args.getD 1 .vnull)).isSome)
      else .vbool false, st, false⟩
  | "and" => ⟨.vbool (args.all (truthy st)), st, false⟩
  | "or" => ⟨.vbool (args.any (truthy st)), st, false⟩
  | "not" =>
    ⟨if args.length == 1 then .vbool (!truthy st (args.getD 0 .vnull)) else .vbool false,
      st, false⟩
  | "abs" =>
    ⟨if args.length == 1 && !isNull (args.getD 0 .vnull) then
        -- abs of a non-numeric value raises in Python; modelled 0
        match asInt (args.getD 0 .vnull) with
        | some n => .vint |n|
        | none => .vint 0
      else .vint 0, st, false⟩
  | "sub" =>
    ⟨if args.length == 2 && !isNull (args.getD 0 .vnull) && !isNull (args.getD 1 .vnull) then
        match asInt (args.getD 0 .vnull), asInt (args.getD 1 .vnull) with
        | some x, some y => .vint (x - y)
        | _, _ => .vint 0 -- non-numeric subtraction raises in Python
      else .vint 0, st, false⟩
  | "add" =>
    ⟨if args.length == 2 && !isNull (args.getD 0 .vnull) && !isNull (args.getD 1 .vnull) then
        pyAdd (args.getD 0 .vnull) (args.getD 1 .vnull)
      else .vint 0, st, false⟩
  | "mul" =>
    -- result starts at 1 and multiplies in every non-null argument; sequence
    -- repetition by a non-numeric factor is not modelled (skipped)
    ⟨.vint (args.foldl (fun r a => match asInt a with
        | some n => r * n
        | none => r) 1), st, false⟩
  | "mod" =>
    ⟨if args.length == 2 && !isNull (args.getD 0 .vnull) && !isNull (args.getD 1 .vnull) then
        match asInt (args.getD 0 .vnull), asInt (args.getD 1 .vnull) with
        | some x, some y => .vint (Int.fmod x y) -- Python % (zero divisor raises)
        | _, _ => .vint 0
      else .vint 0, st, false⟩
  | "count" =>
    ⟨match args.getD 0 .vnull with
      | .vzone n =>
        match lookupZone st n with
        | some z => .vint z.entities.length
        | none => .vint 0
      | .vlist xs => .vint xs.length
      | _ => .vint 0, st, false⟩
  | "zone" =>
    ⟨match args.getD 0 .vnull with
      | .vstr s => if (lookupZone st s).isSome then .vzone s else .vnull
      | _ => .vnull, st, false⟩
  | "entities_in_zone" =>
    ⟨match args.getD 0 .vnull with
      | .vstr s =>
        match lookupZone st s with
        | some z => .vlist (z.entities.map .ventity)
        | none => .vlist []
      | _ => .vlist [], st, false⟩
  | "random_int" =>
    -- randint draws from the RNG; the drawn value comes from the oracle
    -- tape; the game state proper is untouched
    (match asInt ((args.get? 0).getD (.vint 1)), asInt ((args.get? 1).getD (.vint 6)) with
      | some a, some b =>
        if b < a then ⟨.vint a, st, false⟩ -- empty range raises in Python
        else
          match st.rng with
          | [] => ⟨.vint a, st, false⟩ -- oracle exhausted
          | h :: t => ⟨.vint (a + Int.ofNat (h % (b - a + 1).toNat)), { st with rng := t }, false⟩
      | _, _ => ⟨.vint 0, st, false⟩) -- non-int bounds raise in Python
  | "shuffle" =>
    (match args.getD 0 .vnull with
      | .vzone n =>
        match lookupZone st n with
        | some z =>
          let pr := tapeShuffle st.rng z.entities
          ⟨.vnull, { updateZone st n (fun z2 => { z2 with entities := pr.1 }) with rng := pr.2 },
            true⟩
        | none => ⟨.vnull, st, true⟩
      | _ => ⟨.vnull, st, true⟩)
  | "draw_card" =>
    (match args.getD 0 .vnull, args.getD 1 .vnull with
      | .vzone s, .vzone d =>
        match lookupZone st s with
        | some z =>
          let count : Int := match args.get? 2 with
            | some v => (asInt v).getD 0 -- non-int count raises in Python
            | none => 1
          let m := (min count (z.entities.length : Int)).toNat
          let pr := drawLoop st s d m
          ⟨.vlist (pr.2.map .ventity), pr.1, true⟩
        | none => ⟨.vlist [], st, true⟩
      | _, _ => ⟨.vlist [], st, true⟩)
  | "mid_pos" =>
    (match args with
      | [a, b] =>
        match coordOf a, coordOf b with
        | some (ax, ay), some (bx, byy) =>
          ⟨.vtuple [.vint (Int.fdiv (ax + bx) 2), .vint (Int.fdiv (ay + byy) 2)], st, false⟩
        | _, _ => ⟨.vnull, st, false⟩ -- non-coordinate arguments raise in Python
      | _ => ⟨.vnull, st, false⟩) -- tuple unpacking raises unless exactly 2 args
  | "path_clear" =>
    (match args with
      | [a, b] =>
        match coordOf a, coordOf b with
        | some (sx, sy), some (tx, ty) =>
          match pathClearFuel pf st sx sy tx ty with
          | some r => ⟨.vbool r, st, false⟩
          | none => ⟨.vnull, st, false⟩ -- fuel exhausted: the source loop diverges here
        | _, _ => ⟨.vnull, st, false⟩
      | _ => ⟨.vnull, st, false⟩)
  | "other_player" =>
    -- Python reads args[0] unguarded (raises when absent)
    (match st.players.find? (fun pr => !pyEq (.vplayer pr.1) (args.getD 0 .vnull)) with
      | some pr => ⟨.vplayer pr.1, st, false⟩
      | none => ⟨.vnull, st, false⟩)
  | "next_player" =>
    let current := match args.get? 0 with
      | some v => v
      | none => st.currentPlayer
    let direction : Int := match args.get? 1 with
      | some v => (asInt v).getD 1 -- non-int direction raises in Python
      | none => 1
    let names := st.players.map Prod.fst
    (match names.findIdx? (fun n => pyEq (.vplayer n) current) with
      | some i =>
        ⟨.vplayer (names.getD ((((i : Int) + direction).fmod (names.length : Int)).toNat) ""),
          st, false⟩
      | none => ⟨.vnull, st, false⟩)
  | "top_card" =>
    ⟨match args.getD 0 .vnull with
      | .vzone n =>
        match lookupZone st n with
        | some z =>
          match z.entities.getLast? with
          | some id => .ventity id
          | none => .vnull
        | none => .vnull
      | _ => .vnull, st, false⟩
  | "concat" => ⟨.vstr (String.join (args.map (pyStr st))), st, false⟩
  | _ => ⟨.vnull, st, false⟩

/-- An evaluation context: the Python dict of identifier bindings.  Python
dict assignment overwrites, so where the source writes bindings after
constructing the literal, the later bindings are placed in front here
(lookup is first-match). -/
abbrev Context := List (String × Value)

/-- Coordinate-dict normalisation of an index key: `if isinstance(key, dict)
and "x" in key and "y" in key: key = (key["x"], key["y"])`. -/
def normKey (k : Value) : Value :=
  match k with
  | .vdict m =>
    match dictGet m (.vstr "x"), dictGet m (.vstr "y") with
    | some kx, some ky => .vtuple [kx, ky]
    | _, _ => .vdict m
  | v => v

/-- List element access of the indexing branch: Python `isinstance(key, int)`
also accepts bools (a bool is an int in Python), then the explicit bounds
check `0 <= key < len(obj)`. -/
def elemAt (xs : List Value) (key : Value) : Value :=
  match asInt key with
  | some k => if 0 ≤ k ∧ k < (xs.length : Int) then (xs.get? k.toNat).getD .vnull else .vnull
  | none => .vnull

/-- The dispatch on the indexed object (src/game.py lines 95-100): dict
lookup (the board alias is a dict), guarded list/tuple element access,
otherwise `None`. -/
def indexLookup (st : GameState) (obj key : Value) : Value :=
  match obj with
  | .vdict m => (dictGet m key).getD .vnull
  | .vboard => boardGetV st key
  | .vlist xs => elemAt xs key
  | .vtuple xs => elemAt xs key
  | _ => .vnull

/-- Python `path.split(".", 1)`. -/
def splitFirstDot (s : String) : String × Option String :=
  match firstIdx s '.' with
  | none => (s, none)
  | some i => (pySlice s 0 i, some (pyDrop s (i + 1)))

/-- The argument splitter `_parse_args`: split at top-level commas tracking
paren/bracket depth; every comma emits the (stripped) chunk so far, the
trailing chunk is kept only when non-empty after stripping. -/
def argChunks : List Char → Int → List Char → List String
  | [], _, cur => if (stripChars cur).isEmpty then [] else [String.mk (stripChars cur)]
  | c :: rest, depth, cur =>
    if c == '(' || c == '[' then argChunks rest (depth + 1) (cur ++ [c])
    else if c == ')' || c == ']' then argChunks rest (depth - 1) (cur ++ [c])
    else if c == ',' && depth == 0 then String.mk (stripChars cur) :: argChunks rest 0 []
    else argChunks rest depth (cur ++ [c])

/-- Argument strings of a call, `none`-free: `if not args_str.strip(): return []`. -/
def parseArgStrings (s : String) : List String :=
  if pyStrip s == "" then [] else argChunks s.data 0 []

/-- The paren scan of the call branch (src/game.py lines 109-122): walk the
characters, record the position of an opening paren seen at depth 0, and stop
at the first closing paren that brings the depth back to 0.  Returns the
function-name end and the closing index.  (A close without a recorded open
would be a NameError in the source; it cannot occur, since depth can only
return to 0 through an open recorded at depth 0.) -/
def findCall : List Char → Int → Option Nat → Nat → Option (Nat × Nat)
  | [], _, _, _ => none
  | c :: rest, depth, fs, i =>
    if c == '(' then
      findCall rest (depth + 1) (if depth == 0 then some i else fs) (i + 1)
    else if c == ')' then
      if depth - 1 == 0 then
        match fs with
        | some j => some (j, i)
        | none => none
      else findCall rest (depth - 1) fs (i + 1)
    else findCall rest depth fs (i + 1)

/-- The property-chain handler `_get_property`: evaluate the head before the
first dot, then walk the remaining dotted segments. -/
def getProp (ev : String → Context → GameState → EvalRes) (path : String) (ctx : Context)
    (st : GameState) : EvalRes :=
  let pr := splitFirstDot path
  let r := ev pr.1 ctx st
  if isNull r.val then ⟨.vnull, r.st, r.eff⟩
  else
    match pr.2 with
    | none => ⟨r.val, r.st, r.eff⟩
    | some rest => ⟨walkProps r.st r.val (splitDots rest), r.st, r.eff⟩

/-- Evaluate a list of argument strings left to right, threading the state. -/
def evalArgsList (ev : String → Context → GameState → EvalRes) (ctx : Context) :
    List String → GameState → List Value × GameState × Bool
  | [], st => ([], st, false)
  | a :: rest, st =>
    let r := ev a ctx st
    let pr := evalArgsList ev ctx rest r.st
    (r.val :: pr.1, pr.2.1, r.eff || pr.2.2)

/-- The indexing branch of `eval` (lines 78-100): fires when the expression
contains brackets, does not start with a quote, and the prefix before the
first bracket has no paren.  The object is evaluated first; `None` short-
circuits before the key is evaluated. -/
def idxBranch (ev : String → Context → GameState → EvalRes) (expr : String) (ctx : Context)
    (st : GameState) : Option EvalRes :=
  if containsChar expr '[' && containsChar expr ']' && !startsWithS expr sqs then
    match firstIdx expr '[' with
    | none => none
    | some bs =>
      if containsChar (pySlice expr 0 bs) '(' then none
      else
        let be := (lastIdx expr ']').getD 0
        let objName := pyStrip (pySlice expr 0 bs)
        let keyExpr := pyStrip (pySlice expr (bs + 1) be)
        let r1 := ev objName ctx st
        some (if isNull r1.val then ⟨.vnull, r1.st, r1.eff⟩
          else
            let r2 := ev keyExpr ctx r1.st
            ⟨indexLookup r2.st r1.val (normKey r2.val), r2.st, r1.eff || r2.eff⟩)
  else none

/-- The call part of the paren branch: only fires when the whole expression
ends in a closing paren (the source checks `expr.endswith(")")` at the close);
the call returns at the first paren group, ignoring any trailing text. -/
def callScan (pf : Nat) (ev : String → Context → GameState → EvalRes) (expr : String)
    (ctx : Context) (st : GameState) : Option EvalRes :=
  if endsWithS expr ")" then
    match findCall expr.data 0 none 0 with
    | some (j, i) =>
      let fname := pyStrip (pySlice expr 0 j)
      let ar := evalArgsList ev ctx (parseArgStrings (pySlice expr (j + 1) i)) st
      let cr := callFunction pf ar.2.1 fname ar.1
      some ⟨cr.val, cr.st, ar.2.2 || cr.eff⟩
    | none => none
  else none

/-- The paren branch of `eval` (lines 102-122): an expression whose first dot
precedes its first paren is a property chain on a call result; otherwise the
paren scan may produce a call. -/
def callBranch (pf : Nat) (ev : String → Context → GameState → EvalRes) (expr : String)
    (ctx : Context) (st : GameState) : Option EvalRes :=
  if containsChar expr '(' then
    match firstIdx expr '.' with
    | some d =>
      if d < (firstIdx expr '(').getD 0 then some (getProp ev expr ctx st)
      else callScan pf ev expr ctx st
    | none => callScan pf ev expr ctx st
  else none

/-- The property branch of `eval` (line 124). -/
def propBranch (ev : String → Context → GameState → EvalRes) (expr : String) (ctx : Context)
    (st : GameState) : Option EvalRes :=
  if containsChar expr '.' && !startsWithS expr sqs then some (getProp ev expr ctx st)
  else none

/-- Literal parsing (lines 127-143): `null`, `true`, `false`, quoted strings,
then `int()`.  The `float()` attempt is unreachable with a non-raising
argument: any unquoted expression containing a dot was already routed to the
property branch, so only quote-prefixed strings reach it and those raise. -/
def litParse (expr : String) : Option Value :=
  if expr == "null" then some .vnull
  else if expr == "true" then some (.vbool true)
  else if expr == "false" then some (.vbool false)
  else if startsWithS expr sqs && endsWithS expr sqs then
    some (.vstr (pySlice expr 1 (expr.data.length - 1)))
  else if startsWithS expr "\"" && endsWithS expr "\"" then
    some (.vstr (pySlice expr 1 (expr.data.length - 1)))
  else (pyInt expr).map .vint

/-- One layer of `ExpressionEvaluator.eval`, parametrised by the evaluator
used for subexpressions.  The branch order is the source's contract:
indexing, calls, property chains, literals, context lookup. -/
def evalCore (pf : Nat) (ev : String → Context → GameState → EvalRes) (expr0 : String)
    (ctx : Context) (st : GameState) : EvalRes :=
  let expr := pyStrip expr0
  match idxBranch ev expr ctx st with
  | some r => r
  | none =>
    match callBranch pf ev expr ctx st with
    | some r => r
    | none =>
      match propBranch ev expr ctx st with
      | some r => r
      | none =>
        match litParse expr with
        | some v => ⟨v, st, false⟩
        | none => ⟨(assocGet ctx expr).getD .vnull, st, false⟩

/-- The expression evaluator with a recursion-depth fuel (the source recurses
on strict subexpressions; fuel exhaustion yields null with the state
untouched). -/
def eval : Nat → String → Context → GameState → EvalRes
  | 0, _, _, st => ⟨.vnull, st, false⟩
  | pf + 1, expr, ctx, st => evalCore pf (fun e c s => eval pf e c s) expr ctx st

/-- Position of the comma at which Python's greedy `(.+),\s*(.+)` splits:
the last comma with at least one character on each side. -/
def lastGoodComma (cs : List Char) : Option Nat :=
  (List.range cs.length).foldl
    (fun acc i => if cs.getD i ' ' == ',' && decide (1 ≤ i) && decide (i + 1 < cs.length)
      then some i else acc) none

/-- Split a character list at the comma `lastGoodComma` finds. -/
def splitLastComma (cs : List Char) : Option (List Char × List Char) :=
  match lastGoodComma cs with
  | none => none
  | some i => some (cs.take i, cs.drop (i + 1))

/-- Match the effect pattern `kw\((.+),\s*(.+)\)$` (greedy groups as in
Python: split at the last viable comma).  Groups are returned raw; the
source strips them at every use site. -/
def parse2 (kw : String) (eff : String) : Option (String × String) :=
  if startsWithS eff (kw ++ "(") && endsWithS eff ")" then
    (splitLastComma ((eff.data.drop (kw.length + 1)).dropLast)).map fun pr =>
      (String.mk pr.1, String.mk pr.2)
  else none

/-- Match the one-group pattern `kw\((.+)\)$`. -/
def parse1 (kw : String) (eff : String) : Option String :=
  if startsWithS eff (kw ++ "(") && endsWithS eff ")" then
    let inner := (eff.data.drop (kw.length + 1)).dropLast
    if inner.isEmpty then none else some (String.mk inner)
  else none

/-- Match `kw\((.+),\s*(.+),\s*(.+)\)$`: greedy groups split at the last two
viable commas. -/
def parse3 (kw : String) (eff : String) : Option (String × String × String) :=
  match parse2 kw eff with
  | none => none
  | some (g12, g3) =>
    match splitLastComma g12.data with
    | none => none
    | some pr => some (String.mk pr.1, String.mk pr.2, g3)

/-- Delete a key from the entities table, Python `del entities[id]`. -/
def natDel (m : List (Nat × Entity)) (k : Nat) : List (Nat × Entity) :=
  match m with
  | [] => []
  | (k1, v1) :: rest => if k1 == k then rest else (k1, v1) :: natDel rest k

/-- The `remove_entity` effect body (src/game.py lines 896-906): delete from
the entities table when present, then sweep the board for entries carrying
the same id.  Zone membership is NOT touched by the source.  (A truthy
non-entity board value would raise at `ent.id` in Python; board values are
entities.) -/
def removeEntityEff (st : GameState) (v : Value) : GameState :=
  match v with
  | .ventity id =>
    let st1 := { st with entities := natDel st.entities id }
    { st1 with board := st1.board.filter fun kv => !pyEq kv.2 (.ventity id) }
  | _ => st

/-- The `move_to_zone` effect body (lines 908-920): detach from the current
zone when `entity.pos` is a zone (list `remove` drops the first identity
match), append to the target zone, update `pos`.  A truthy non-entity first
argument would raise at `entity.pos` in Python. -/
def moveToZoneEff (st : GameState) (entV zoneV : Value) : GameState :=
  match entV, zoneV with
  | .ventity id, .vzone zn =>
    if (lookupZone st zn).isSome then
      let st1 :=
        match lookupEntity st id with
        | some e =>
          match e.pos with
          | .vzone pzn =>
            match lookupZone st pzn with
            | some pz =>
              if pz.entities.contains id then
                updateZone st pzn fun z => { z with entities := z.entities.erase id }
              else st
            | none => st
          | _ => st
        | none => st -- an entity object no longer in the table is not modelled
      let st2 := updateZone st1 zn fun z => { z with entities := z.entities ++ [id] }
      updateEntity st2 id fun e => { e with pos := .vzone zn }
    else st
  | _, _ => st

/-- The `draw_cards` effect body (lines 922-934): the same guarded transfer
loop as the `draw_card` builtin, without collecting the drawn list. -/
def drawCardsEff (st : GameState) (s d cnt : Value) : GameState :=
  match s, d with
  | .vzone sn, .vzone dn =>
    match lookupZone st sn with
    | some z =>
      let count := (asInt cnt).getD 0 -- non-int count raises in Python
      (drawLoop st sn dn (min count (z.entities.length : Int)).toNat).1
    | none => st
  | _, _ => st

/-- Python `getattr(obj, part, None)` used by the dotted-path walk of
`_set_value`: attribute access only, no dict fallback. -/
def midWalk (st : GameState) : Value → List String → Option Value
  | obj, [] => some obj
  | obj, p :: rest =>
    if isNull obj then none
    else midWalk st ((pyGetAttr st obj p).getD .vnull) rest

/-- Python `setattr(obj, attr, value)` on the objects reachable from
evaluation contexts.  Attribute writes that would change an object's
identity key (`Entity.id`, `Player.name`) or replace a typed container of
the state wholesale are not used by game specifications and are modelled as
no-ops (commented); `setattr` on non-objects raises in Python. -/
def setAttrOn (st : GameState) (obj : Value) (attr : String) (value : Value) : GameState :=
  match obj with
  | .ventity id =>
    updateEntity st id fun e =>
      if attr == "schema" then { e with schema := value }
      else if attr == "owner" then { e with owner := value }
      else if attr == "rank" then { e with rank := value }
      else if attr == "pos" then { e with pos := value }
      else if attr == "id" then e -- identity rewrite not modelled
      else { e with attrs := assocSet e.attrs attr value }
  | .vplayer n =>
    if attr == "name" then st -- identity rewrite not modelled
    else { st with players := assocUpdate st.players n fun p =>
      { p with attrs := assocSet p.attrs attr value } }
  | .vzone n =>
    updateZone st n fun z =>
      if attr == "name" then { z with zname := value }
      else if attr == "type" then { z with ztype := value }
      else if attr == "owner" then { z with owner := value }
      else if attr == "visible" then { z with visible := value }
      else if attr == "ordered" then { z with ordered := value }
      else if attr == "visible_to" then { z with visibleTo := value }
      else z -- `entities` and ad-hoc zone attributes are not written by specs
  | .vstate =>
    if attr == "current_player" then { st with currentPlayer := value }
    else if attr == "current_phase" then { st with currentPhase := value }
    else if attr == "players" || attr == "entities" || attr == "board" ||
        attr == "zones" || attr == "topology" then st -- container replacement not modelled
    else { st with stateVars := assocSet st.stateVars attr value }
  | _ => st -- setattr on a non-object raises in Python

/-- The assignment handler `_set_value` (lines 936-961).  The trailing
`state.`-prefix branch of the source is dead code: any such target contains
a dot and is consumed by the dotted branch first. -/
def setValue (pf : Nat) (target : String) (value : Value) (ctx : Context) (st : GameState) :
    GameState :=
  if startsWithS target "board[" && endsWithS target "]" && decide (7 < target.data.length) then
    let pr := eval pf (pyStrip (pySlice target 6 (target.data.length - 1))) ctx st
    let pos := normKey pr.val
    match assocGet ctx "board" with
    | some .vboard =>
      if isNull value then { pr.st with board := dictDel pr.st.board pos }
      else { pr.st with board := dictSet pr.st.board pos value }
    | _ => pr.st -- context without a board binding raises KeyError in Python
  else if containsChar target '.' then
    match splitDots target with
    | [] => st
    | hd :: tl =>
      match tl.getLast? with
      | none => st
      | some lastPart =>
        let obj0 := (assocGet ctx hd).getD .vnull
        match midWalk st obj0 tl.dropLast with
        | none => st
        | some obj => if isNull obj then st else setAttrOn st obj lastPart value
  else st

/-- The effect interpreter `_apply_effect` (lines 876-934): the recognised
patterns are tried in source order; an unrecognised effect string is a
silent no-op.  Fuel bounds the `if(...)` nesting; the evaluator calls reuse
the same fuel. -/
def applyEffect : Nat → String → Context → GameState → GameState
  | 0, _, _, st => st
  | pf + 1, effect0, ctx, st =>
    let eff := pyStrip effect0
    match parse2 "set" eff with
    | some (g1, g2) =>
      let vr := eval pf (pyStrip g2) ctx st
      setValue pf (pyStrip g1) vr.val ctx vr.st
    | none =>
    match parse2 "if" eff with
    | some (g1, g2) =>
      let cr := eval pf (pyStrip g1) ctx st
      if truthy cr.st cr.val then applyEffect pf (pyStrip g2) ctx cr.st else cr.st
    | none =>
    match parse1 "remove_entity" eff with
    | some g1 =>
      let er := eval pf (pyStrip g1) ctx st
      removeEntityEff er.st er.val
    | none =>
    match parse2 "move_to_zone" eff with
    | some (g1, g2) =>
      let er := eval pf (pyStrip g1) ctx st
      let zr := eval pf (pyStrip g2) ctx er.st
      moveToZoneEff zr.st er.val zr.val
    | none =>
    match parse3 "draw_cards" eff with
    | some (g1, g2, g3) =>
      let sr := eval pf (pyStrip g1) ctx st
      let dr := eval pf (pyStrip g2) ctx sr.st
      let cr := eval pf (pyStrip g3) ctx dr.st
      drawCardsEff cr.st sr.val dr.val cr.val
    | none => st

/-- An action declaration from `interactions.list`: conditions, effects and
the `chainable`/`end_turn` flags (absent keys default to false). -/
structure ActionSpec where
  conditions : List String
  effects : List String
  chainable : Bool
  endTurn : Bool
deriving Repr, Inhabited

/-- A phase declaration from `game_flow.phases`. -/
structure PhaseSpec where
  allowedActions : List String
  autoAdvance : Bool
  nextPhase : Option String
deriving Repr, Inhabited

/-- The parts of the loaded specification document the engine consults after
setup: interactions, phases, and the presentation data used for result
messages. -/
structure GameSpec where
  interactions : List (String × ActionSpec)
  phases : List (String × PhaseSpec)
  entityAssets : List (String × String)
  cardBack : String
deriving Repr, Inhabited

/-- Python `phases.get(state.current_phase or "main_turn", \x7b\x7d)`: a falsy
phase value falls back to "main_turn"; a truthy non-string phase misses the
string-keyed dict and yields the empty phase spec. -/
def phaseSpecOf (spec : GameSpec) (st : GameState) : PhaseSpec :=
  if truthy st st.currentPhase then
    match st.currentPhase with
    | .vstr s => (assocGet spec.phases s).getD ⟨[], false, none⟩
    | _ => ⟨[], false, none⟩
  else (assocGet spec.phases "main_turn").getD ⟨[], false, none⟩

/-- Coordinate dict `\x7b"x": px, "y": py\x7d` bound for condition contexts. -/
def coordDict (p : Int × Int) : Value :=
  .vdict [(.vstr "x", .vint p.1), (.vstr "y", .vint p.2)]

/-- The context `_find_valid_action_for_segment` builds: positions as
coordinate dicts, the board and state as aliases into the threaded state. -/
def segCondCtx (eid : Nat) (s t : Int × Int) : Context :=
  [("entity", .ventity eid), ("start", coordDict s), ("target", coordDict t),
   ("board", .vboard), ("state", .vstate)]

/-- The context `_apply_effects_for_segment` builds: unlike the condition
context, positions stay raw tuples. -/
def segEffCtx (eid : Nat) (s t : Int × Int) : Context :=
  [("entity", .ventity eid), ("start", .vtuple [.vint s.1, .vint s.2]),
   ("target", .vtuple [.vint t.1, .vint t.2]), ("board", .vboard), ("state", .vstate)]

/-- Evaluate a condition list until one is falsy; every evaluation threads
the state (conditions may call effectful builtins, and their mutations
persist in the source). -/
def evalConds (pf : Nat) (ctx : Context) : List String → GameState → Bool × GameState
  | [], st => (true, st)
  | c :: rest, st =>
    let r := eval pf c ctx st
    if truthy r.st r.val then evalConds pf ctx rest r.st else (false, r.st)

/-- Try the allowed actions in order; an action name missing from
`interactions.list` yields the empty dict in the source, whose empty
condition list matches immediately. -/
def tryActions (pf : Nat) (spec : GameSpec) (ctx : Context) :
    List String → GameState → Option (String × ActionSpec) × GameState
  | [], st => (none, st)
  | a :: rest, st =>
    let aspec := (assocGet spec.interactions a).getD ⟨[], [], false, false⟩
    let pr := evalConds pf ctx aspec.conditions st
    if pr.1 then (some (a, aspec), pr.2) else tryActions pf spec ctx rest pr.2

/-- `_find_valid_action_for_segment` (lines 683-722). -/
def findValidActionForSegment (pf : Nat) (spec : GameSpec) (eid : Nat) (s t : Int × Int)
    (st : GameState) : Option (String × ActionSpec) × GameState :=
  tryActions pf spec (segCondCtx eid s t) (phaseSpecOf spec st).allowedActions st

/-- `_apply_effects_for_segment` (lines 724-737): re-look up the action by
name and fold its effects over the state. -/
def applyEffectsForSegment (pf : Nat) (spec : GameSpec) (aname : String) (eid : Nat)
    (s t : Int × Int) (st : GameState) : GameState :=
  let aspec := (assocGet spec.interactions aname).getD ⟨[], [], false, false⟩
  aspec.effects.foldl (fun s2 e => applyEffect pf e (segEffCtx eid s t) s2) st

/-- The two failure modes of a path (Error table: NoMatchingAction and
NonChainableInChain). -/
inductive MoveErr where
  | noAction
  | nonChainable (name : String)
deriving Repr, DecidableEq

/-- The message `process_move_path` reports for each failure. -/
def msgOf : MoveErr → String
  | .noAction => "Invalid move sequence."
  | .nonChainable n => "Action " ++ sqs ++ n ++ sqs ++ " cannot be chained."

/-- The segment loop of `process_move_path` (lines 749-771), acting on the
speculative state: find an action, reject a non-chainable action in a
multi-segment path, apply the effects, continue. -/
def goSegments (pf : Nat) (spec : GameSpec) (isMulti : Bool) (eid : Nat) :
    List ((Int × Int) × (Int × Int)) → GameState → Except MoveErr GameState
  | [], sim => .ok sim
  | (s, t) :: rest, sim =>
    match findValidActionForSegment pf spec eid s t sim with
    | (none, _) => .error .noAction
    | (some (aname, aspec), st2) =>
      if isMulti && !aspec.chainable then .error (.nonChainable aname)
      else goSegments pf spec isMulti eid rest (applyEffectsForSegment pf spec aname eid s t st2)

/-- The turn advance at the end of a successful path (lines 779-789): the
source routes through `_call_function` with `other_player` for exactly two
players, else `next_player` with `getattr(state, "turn_direction", 1)`. -/
def advanceTurn (pf : Nat) (sim : GameState) : GameState :=
  if sim.players.length == 2 then
    { sim with currentPlayer := (callFunction pf sim "other_player" [sim.currentPlayer]).val }
  else
    { sim with currentPlayer := (callFunction pf sim "next_player"
        [sim.currentPlayer, (assocGet sim.stateVars "turn_direction").getD (.vint 1)]).val }

/-- `process_move_path` (lines 739-790).  The deep copy of the state is the
identity on the functional representation; all segment work happens on the
copy, a failure returns the untouched input state, and success installs the
copy and advances the turn. -/
def processMovePath (pf : Nat) (spec : GameSpec) (st : GameState) (eid : Nat)
    (path : List (Int × Int)) : Bool × String × GameState :=
  match goSegments pf spec (decide (2 < path.length)) eid (path.zip path.tail) st with
  | .error e => (false, msgOf e, st)
  | .ok sim => (true, "Move successful.", advanceTurn pf sim)

/-- `get_asset_for_entity` without hiding (lines 572-587): first asset whose
condition is truthy, with `#` replaced by the entity's rank (a string in
every surviving spec; a non-string rank raises in Python). -/
def getAssetForEntity (pf : Nat) (st : GameState) (entityV : Value) :
    List (String × String) → String × GameState
  | [] => ("?", st)
  | (cond, asset) :: rest =>
    let ctx : Context := [("entity", entityV), ("mute_debug", .vbool true)]
    let r := eval pf cond ctx st
    if truthy r.st r.val then
      if containsChar asset '#' then
        let rankStr :=
          match entityV with
          | .ventity id =>
            match lookupEntity r.st id with
            | some e => match e.rank with | .vstr s2 => s2 | _ => ""
            | none => ""
          | _ => ""
        (replaceHash asset rankStr, r.st)
      else (asset, r.st)
    else getAssetForEntity pf r.st entityV rest

/-- Condition check of the card pipeline: conditions mentioning `card.` are
skipped when no card is selected (the draw case). -/
def evalCardConds (pf : Nat) (ctx : Context) (cardV : Value) :
    List String → GameState → Bool × GameState
  | [], st => (true, st)
  | c :: rest, st =>
    if isNull cardV && isSubstr "card." c then evalCardConds pf ctx cardV rest st
    else
      let r := eval pf c ctx st
      if truthy r.st r.val then evalCardConds pf ctx cardV rest r.st else (false, r.st)

/-- The action loop of `process_card_action` (lines 831-874): skip actions
absent from the spec (`if not action_spec: continue`), check conditions,
apply effects, auto-advance the phase, advance the turn on `end_turn`, and
build the result message. -/
def cardLoop (pf : Nat) (spec : GameSpec) (pspec : PhaseSpec) (ctx : Context) (cardV : Value)
    (cardIndex : Int) : List String → GameState → Bool × String × GameState
  | [], st =>
    if cardIndex == -1 then (false, "Cannot draw a card right now.", st)
    else (false, "Cannot play that card.", st)
  | a :: rest, st =>
    match assocGet spec.interactions a with
    | none => cardLoop pf spec pspec ctx cardV cardIndex rest st
    | some aspec =>
      let pr := evalCardConds pf ctx cardV aspec.conditions st
      if pr.1 then
        let st2 := aspec.effects.foldl (fun s e => applyEffect pf e ctx s) pr.2
        let st3 :=
          if pspec.autoAdvance then
            match pspec.nextPhase with
            | some np => if np == "" then st2 else { st2 with currentPhase := .vstr np }
            | none => st2
          else st2
        let st4 :=
          if aspec.endTurn then
            { st3 with currentPlayer := (callFunction pf st3 "next_player"
                [st3.currentPlayer, (assocGet st3.stateVars "turn_direction").getD (.vint 1)]).val }
          else st3
        if cardIndex == -1 then (true, "Drew a card.", st4)
        else
          let ar := getAssetForEntity pf st4 cardV spec.entityAssets
          (true, "Played " ++ ar.1, ar.2)
      else cardLoop pf spec pspec ctx cardV cardIndex rest pr.2

/-- `process_card_action` (lines 792-874).  The hand zone is the first zone
owned by the player whose name contains "hand"; index −1 is the draw
request.  Context bindings added in a loop by the source (one per zone)
overwrite the literal ones, which first-match lookup models by placing them
in front. -/
def processCardAction (pf : Nat) (spec : GameSpec) (st : GameState) (playerName : String)
    (cardIndex : Int) (targetData : Value) : Bool × String × GameState :=
  match st.zones.find? (fun kv =>
      pyEq kv.2.owner (.vplayer playerName) &&
      (match kv.2.zname with
       | .vstr s => isSubstr "hand" (toLowerS s)
       | _ => false)) with
  | none => (false, "No hand zone found.", st)
  | some (hname, hz) =>
    let pspec := phaseSpecOf spec st
    let runWith (cardV : Value) (actions : List String) : Bool × String × GameState :=
      let ctx : Context :=
        st.zones.map (fun kv => (kv.1, Value.vzone kv.1)) ++
        [("entity", cardV), ("card", cardV), ("player", .vplayer playerName),
         ("state", .vstate), ("target", targetData), ("hand_zone", .vzone hname)]
      cardLoop pf spec pspec ctx cardV cardIndex actions st
    if cardIndex == -1 then runWith .vnull ["draw_card"]
    else if cardIndex < 0 || (hz.entities.length : Int) ≤ cardIndex then
      (false, "Invalid card number.", st)
    else runWith (.ventity (hz.entities.getD cardIndex.toNat 0)) pspec.allowedActions

/-- Placement targets produced by `_parse_location_string`. -/
inductive SpawnLoc where
  | onBoard (x y : Int)
  | inZone (n : String)
deriving Repr, DecidableEq

/-- First index at which a literal substring occurs, Python `re.search`
anchor scanning. -/
def findSub (needle hay : String) : Option Nat :=
  (List.range (hay.data.length + 1)).find? fun i => needle.data.isPrefixOf (hay.data.drop i)

/-- Match `kw\('([^']+)'\)` at the start of a character list. -/
def matchCallAt (kw : String) (cs : List Char) : Option String :=
  if (kw ++ "(" ++ sqs).data.isPrefixOf cs then
    let rest := cs.drop (kw.length + 2)
    let name := rest.takeWhile fun c => c != sq
    if !name.isEmpty && (rest.drop name.length).take 2 = [sq, ')'] then
      some (String.mk name)
    else none
  else none

/-- Python `re.search(r"kw\('([^']+)'\)", s)`: first position where the
pattern matches. -/
def searchCall (kw : String) (s : String) : Option String :=
  (List.range (s.data.length + 1)).findSome? fun i => matchCallAt kw (s.data.drop i)

/-- `_parse_location_string` (lines 374-394): `grid_nodes(a,b,c,d)`
enumerates the inclusive rectangle rows-outer/columns-inner; `zone('N')`
yields a single zone placement; anything else resolves to nothing. -/
def parseLocationString (s : String) : List SpawnLoc :=
  if isSubstr "grid_nodes" s then
    match findSub "grid_nodes(" s with
    | none => []
    | some i =>
      let rest := s.data.drop (i + 11)
      let inner := rest.takeWhile fun c => c != ')'
      if rest.length == inner.length then [] -- no closing paren: the regex fails
      else
        match digitRuns inner with
        | [xmin, ymin, xmax, ymax] =>
          ((List.range (ymax + 1 - ymin)).map fun dy =>
            (List.range (xmax + 1 - xmin)).map fun dx =>
              SpawnLoc.onBoard (Int.ofNat (xmin + dx)) (Int.ofNat (ymin + dy))).flatten
        | _ => []
  else if startsWithS s "zone(" then
    match searchCall "zone" s with
    | some n => [.inZone n]
    | none => []
  else []

/-- Setup steps as deserialised from `setup.steps` (counts are Python ints). -/
inductive SetupStep where
  | spawnEntity (schema : String) (setAttributes : List (String × Value)) (locs : List String)
  | shuffleZone (zone : String)
  | dealCards (src : String) (toZones : List String) (count : Int)
  | moveCard (src : String) (dst : String) (count : Int)
deriving Repr

/-- Create one entity at one location (lines 505-517): the id comes from the
global counter; a zone placement whose zone is missing still records the
entity with `pos = None`. -/
def spawnOne (st : GameState) (schema : String) (owner : Value)
    (pattrs : List (String × Value)) (loc : SpawnLoc) : GameState :=
  let id := st.nextId
  let rank := (assocGet pattrs "rank").getD (.vstr "man")
  let bag := pattrs.filter fun kv => kv.1 != "owner" && kv.1 != "rank"
  let ent : Entity := ⟨.vstr schema, owner, rank, .vnull, bag⟩
  match loc with
  | .onBoard x y =>
    { st with
      nextId := id + 1
      board := dictSet st.board (.vtuple [.vint x, .vint y]) (.ventity id)
      entities := st.entities ++ [(id, { ent with pos := .vtuple [.vint x, .vint y] })] }
  | .inZone zn =>
    match lookupZone st zn with
    | some _ =>
      let st2 := updateZone st zn fun z => { z with entities := z.entities ++ [id] }
      { st2 with
        nextId := id + 1
        entities := st2.entities ++ [(id, { ent with pos := .vzone zn })] }
    | none =>
      { st with nextId := id + 1, entities := st.entities ++ [(id, ent)] }

/-- One deal round (inner loop of `deal_cards`): one guarded head-to-tail
transfer per target zone, in the listed order. -/
def dealRound (st : GameState) (src : String) (tos : List String) : GameState :=
  tos.foldl (fun s t => transferHead s src t) st

/-- The `for _ in range(count)` round loop of `deal_cards`. -/
def dealLoopN (st : GameState) (src : String) (tos : List String) : Nat → GameState
  | 0 => st
  | k + 1 => dealLoopN (dealRound st src tos) src tos k

/-- `_execute_setup_step` (lines 477-570).  Owner and attribute values use
the `player('Name')` micro-syntax; a matching prefix with a failed regex
drops the attribute, an unresolvable player stores None, both as in the
source.  Zone names in `deal_cards`/`move_card` come from the
`zone('Name')` micro-syntax; unresolved zones are filtered out. -/
def executeSetupStep (st : GameState) (step : SetupStep) : GameState :=
  match step with
  | .spawnEntity schema attrs locs =>
    let owner : Value :=
      match assocGet attrs "owner" with
      | some (.vstr os) =>
        match searchCall "player" os with
        | some pn => if (lookupPlayer st pn).isSome then .vplayer pn else .vnull
        | none => .vnull
      | _ => .vnull -- a non-string owner attribute raises in re.search
    let pattrs := attrs.foldl
      (fun acc kv =>
        if kv.1 == "owner" then acc
        else
          match kv.2 with
          | .vstr s2 =>
            if startsWithS s2 ("player(" ++ sqs) then
              match searchCall "player" s2 with
              | some pn =>
                acc ++ [(kv.1, if (lookupPlayer st pn).isSome then Value.vplayer pn else .vnull)]
              | none => acc -- regex miss drops the key
            else acc ++ [(kv.1, kv.2)]
          | v => acc ++ [(kv.1, v)]) []
    (locs.foldl (fun l s2 => l ++ parseLocationString s2) []).foldl
      (fun s2 loc => spawnOne s2 schema owner pattrs loc) st
  | .shuffleZone zn =>
    match lookupZone st zn with
    | some z =>
      let pr := tapeShuffle st.rng z.entities
      { updateZone st zn (fun z2 => { z2 with entities := pr.1 }) with rng := pr.2 }
    | none => st
  | .dealCards srcExpr toExprs count =>
    (match searchCall "zone" srcExpr with
      | some fn =>
        if (lookupZone st fn).isSome then
          let active := toExprs.foldl
            (fun acc e => match searchCall "zone" e with
              | some tn => if (lookupZone st tn).isSome then acc ++ [tn] else acc
              | none => acc) []
          if active.isEmpty then st else dealLoopN st fn active count.toNat
        else st
      | none => st)
  | .moveCard srcE dstE count =>
    (match searchCall "zone" srcE, searchCall "zone" dstE with
      | some fn, some tn =>
        match lookupZone st fn, lookupZone st tn with
        | some z, some _ =>
          (drawLoop st fn tn (min count (z.entities.length : Int)).toNat).1
        | _, _ => st
      | _, _ => st)

/-! Claim-side definitions: projections and predicates the claim statements
are phrased with, plus concrete instances used by witnesses. -/

/-- The live game state as the claims enumerate it: players, entities,
board, zones, current player, current phase and the dynamic state
variables.  (The id counter and the RNG oracle tape are not game state.) -/
def stCore (st : GameState) :
    List (String × Player) × List (Nat × Entity) × List (Value × Value) ×
    List (String × Zone) × Value × Value × List (String × Value) :=
  (st.players, st.entities, st.board, st.zones, st.currentPlayer, st.currentPhase,
   st.stateVars)

/-- The zone invariant of the claim: every entity held in any zone is present
in the entities table, has `pos` equal to that zone, and appears in no other
zone. -/
def zoneInvariantB (st : GameState) : Bool :=
  st.zones.all fun kv =>
    kv.2.entities.all fun id =>
      (match lookupEntity st id with
        | some e => pyEq e.pos (.vzone kv.1)
        | none => false) &&
      (st.zones.all fun kv2 => kv2.1 == kv.1 || !(kv2.2.entities.contains id))

/-- The direction `next_player` ends up using after a successful path: the
`turn_direction` state variable read with default 1, coerced as the builtin
does. -/
def turnDir (st : GameState) : Int :=
  (asInt ((assocGet st.stateVars "turn_direction").getD (.vint 1))).getD 1

/-- Python `isinstance(key, int)`: ints and bools. -/
def intLike : Value → Bool
  | .vint _ => true
  | .vbool _ => true
  | _ => false

/-- Values the indexing branch can index: mappings (dicts and the board
alias) and sequences (lists/tuples). -/
def mappingOrSeq : Value → Bool
  | .vdict _ => true
  | .vboard => true
  | .vlist _ => true
  | .vtuple _ => true
  | _ => false

/-- The intermediate cells of the sign-delta line from `(sx, sy)` toward the
target at distance `n`, both endpoints exclusive. -/
def interCells (sx sy dx dy : Int) (n : Nat) : List (Int × Int) :=
  (List.range (n - 1)).map fun i : Nat => (sx + ((i : Int) + 1) * dx, sy + ((i : Int) + 1) * dy)

/-- The entity ids a round-robin deal of `c` rounds to `L` targets hands to
target number `j`: the source-list elements at positions `j, L+j, 2L+j, ...`
(skipping positions past the end of the source). -/
def dealtTo (u : List Nat) (L j c : Nat) : List Nat :=
  (List.range c).filterMap fun r => u.get? (r * L + j)

/-- A bare two-player grid state with an empty board: enough for failure
witnesses and the divergence counterexample. -/
def wStA : GameState :=
  { players := [("Red", ⟨[]⟩), ("Black", ⟨[]⟩)]
    entities := []
    board := []
    zones := []
    currentPlayer := .vplayer "Red"
    currentPhase := .vstr "main_turn"
    topology := [("type", .vstr "grid")]
    stateVars := []
    nextId := 0
    rng := [] }

/-- A spec with no phases: every segment search fails. -/
def wSpecEmpty : GameSpec := ⟨[], [], [], "??"⟩

/-- An action that always matches and is not chainable. -/
def wActStep : ActionSpec := ⟨[], [], false, false⟩

/-- A spec whose phase allows only the always-matching `step` action. -/
def wSpecStep : GameSpec :=
  ⟨[("step", wActStep)], [("main_turn", ⟨["step"], false, none⟩)], [], "??"⟩

/-- Source zone of the draw scenarios: holds two entities. -/
def zDemoA : Zone := ⟨.vstr "A", .vstr "stack", .vnull, .vbool true, .vbool true, .vlist [], [10, 11]⟩

/-- Destination zone of the draw scenarios: empty. -/
def zDemoB : Zone := ⟨.vstr "B", .vstr "stack", .vnull, .vbool true, .vbool true, .vlist [], []⟩

/-- A two-zone state for the draw counterexample: zone A holds two entities,
zone B is empty. -/
def zDemoSt : GameState :=
  { players := []
    entities := [(10, ⟨.vstr "card", .vnull, .vstr "man", .vzone "A", []⟩),
                 (11, ⟨.vstr "card", .vnull, .vstr "man", .vzone "A", []⟩)]
    board := []
    zones := [("A", zDemoA), ("B", zDemoB)]
    currentPlayer := .vnull
    currentPhase := .vstr "main_turn"
    topology := [("type", .vstr "zones")]
    stateVars := []
    nextId := 12
    rng := [] }

/-- The pre-setup card state for the zone-invariant scenario: two players
and two zones, no entities yet (as `setup_game` leaves things right before
the setup steps run). -/
def c2Base : GameState :=
  { players := [("Alice", ⟨[]⟩), ("Bob", ⟨[]⟩)]
    entities := []
    board := []
    zones := [("alice_hand", ⟨.vstr "alice_hand", .vstr "hand", .vplayer "Alice", .vbool false,
                 .vbool true, .vlist [], []⟩),
              ("discard", ⟨.vstr "discard", .vstr "discard", .vnull, .vbool true,
                 .vbool true, .vlist [], []⟩)]
    currentPlayer := .vplayer "Alice"
    currentPhase := .vstr "main_turn"
    topology := [("type", .vstr "zones")]
    stateVars := []
    nextId := 0
    rng := [] }

/-- The setup steps of the scenario: spawn one card into each zone. -/
def c2Steps : List SetupStep :=
  [.spawnEntity "card" [("rank", .vstr "7")] ["zone(\x27alice_hand\x27)"],
   .spawnEntity "card" [("rank", .vstr "9")] ["zone(\x27discard\x27)"]]

/-- The state reached by the setup steps. -/
def c2S0 : GameState := c2Steps.foldl executeSetupStep c2Base

/-- A legal interactions/phase spec whose play action moves the played card
to the discard zone and then removes it from play. -/
def c2Spec : GameSpec :=
  ⟨[("play_any", ⟨[], ["move_to_zone(card, zone(\x27discard\x27))", "remove_entity(card)"],
      false, false⟩)],
   [("main_turn", ⟨["play_any"], false, none⟩)], [], "??"⟩

/-- The state after Alice successfully plays her card. -/
def c2S1 : GameState := (processCardAction 30 c2Spec c2S0 "Alice" 0 .vnull).2.2

/-- Source zone of the dealing witness: a deck of three cards. -/
def c8Deck : Zone :=
  ⟨.vstr "deck", .vstr "stack", .vnull, .vbool false, .vbool true, .vlist [], [20, 21, 22]⟩

/-- First hand of the dealing witness: empty. -/
def c8H1 : Zone :=
  ⟨.vstr "h1", .vstr "hand", .vnull, .vbool false, .vbool true, .vlist [], []⟩

/-- Second hand of the dealing witness: empty. -/
def c8H2 : Zone :=
  ⟨.vstr "h2", .vstr "hand", .vnull, .vbool false, .vbool true, .vlist [], []⟩

/-- A three-zone state for the dealing witness: a deck of three cards and
two empty hands. -/
def c8WSt : GameState :=
  { players := []
    entities := [(20, ⟨.vstr "card", .vnull, .vstr "man", .vzone "deck", []⟩),
                 (21, ⟨.vstr "card", .vnull, .vstr "man", .vzone "deck", []⟩),
                 (22, ⟨.vstr "card", .vnull, .vstr "man", .vzone "deck", []⟩)]
    board := []
    zones := [("deck", c8Deck), ("h1", c8H1), ("h2", c8H2)]
    currentPlayer := .vnull
    currentPhase := .vstr "setup"
    topology := [("type", .vstr "zones")]
    stateVars := []
    nextId := 23
    rng := [] }

/-! Theorems for the claims. -/

/-- C1: for every grid-mode move path, if processing the path fails (no
matching action for some segment, or a non-chainable action inside a
multi-segment path), the live game state returned by `process_move_path` is
exactly the pre-call state: all mutation happened on the discarded clone. -/
theorem c1_failed_move_preserves_live_state (pf : Nat) (spec : GameSpec) (st : GameState)
    (eid : Nat) (path : List (Int × Int))
    (h : (processMovePath pf spec st eid path).1 = false) :
    (processMovePath pf spec st eid path).2.2 = st := by
  unfold processMovePath at h ⊢
  cases hg : goSegments pf spec (decide (2 < path.length)) eid (path.zip path.tail) st <;>
    simp [hg] at h ⊢

/-- Witness for C1 at a concrete failing move: an empty spec rejects the
two-position path and the returned state is the input state. -/
theorem c1_witness :
    (processMovePath 5 wSpecEmpty wStA 0 [(0, 0), (1, 1)]).1 = false ∧
    (processMovePath 5 wSpecEmpty wStA 0 [(0, 0), (1, 1)]).2.2 = wStA :=
  ⟨rfl, c1_failed_move_preserves_live_state 5 wSpecEmpty wStA 0 [(0, 0), (1, 1)] rfl⟩

/-- C4: a 2-position path runs the segment loop with the multi-segment flag
off, and with that flag off the loop can never report a chainability
failure; with the flag on, a segment whose selected action is not chainable
fails immediately with the error naming that action; and a failing
multi-segment path returns false with the error's message and the untouched
live state. -/
theorem c4_chainable_requirement :
    (∀ (pf : Nat) (spec : GameSpec) (st : GameState) (eid : Nat) (a b : Int × Int),
       goSegments pf spec (decide (2 < ([a, b] : List (Int × Int)).length)) eid
         ([a, b].zip [a, b].tail) st = goSegments pf spec false eid [(a, b)] st) ∧
    (∀ (pf : Nat) (spec : GameSpec) (eid : Nat) (segs : List ((Int × Int) × (Int × Int)))
       (sim : GameState) (n : String),
       goSegments pf spec false eid segs sim ≠ .error (.nonChainable n)) ∧
    (∀ (pf : Nat) (spec : GameSpec) (eid : Nat) (s t : Int × Int)
       (rest : List ((Int × Int) × (Int × Int))) (sim st2 : GameState) (aname : String)
       (aspec : ActionSpec),
       findValidActionForSegment pf spec eid s t sim = (some (aname, aspec), st2) →
       aspec.chainable = false →
       goSegments pf spec true eid ((s, t) :: rest) sim = .error (.nonChainable aname)) ∧
    (∀ (pf : Nat) (spec : GameSpec) (st : GameState) (eid : Nat) (path : List (Int × Int))
       (e : MoveErr),
       2 < path.length →
       goSegments pf spec true eid (path.zip path.tail) st = .error e →
       processMovePath pf spec st eid path = (false, msgOf e, st)) := by
  refine ⟨fun pf spec st eid a b => rfl, ?_, ?_, ?_⟩
  · intro pf spec eid segs
    induction segs with
    | nil => intro sim n h; simp [goSegments] at h
    | cons seg rest ih =>
      intro sim n h
      obtain ⟨s, t⟩ := seg
      unfold goSegments at h
      cases hf : findValidActionForSegment pf spec eid s t sim with
      | mk fst st2 =>
        rw [hf] at h
        cases fst with
        | none => simp at h
        | some pr =>
          obtain ⟨aname, aspec⟩ := pr
          simp at h
          exact ih _ n h
  · intro pf spec eid s t rest sim st2 aname aspec hf hc
    unfold goSegments
    rw [hf]
    simp [hc]
  · intro pf spec st eid path e hlen hg
    unfold processMovePath
    rw [decide_eq_true hlen, hg]

/-- Witness for C4: with the always-matching non-chainable `step` action, a
2-position path cannot produce a chainability error, a 3-position path fails
naming `step`, and the live state comes back untouched. -/
theorem c4_witness :
    (goSegments 5 wSpecStep (decide (2 < ([(0, 0), (1, 1)] : List (Int × Int)).length)) 0
       ([(0, 0), (1, 1)].zip [(0, 0), (1, 1)].tail) wStA =
       goSegments 5 wSpecStep false 0 [((0, 0), (1, 1))] wStA) ∧
    (goSegments 5 wSpecStep false 0 [((0, 0), (1, 1))] wStA ≠
       .error (.nonChainable "step")) ∧
    (goSegments 5 wSpecStep true 0 [((0, 0), (1, 1)), ((1, 1), (2, 2))] wStA =
       .error (.nonChainable "step")) ∧
    (processMovePath 5 wSpecStep wStA 0 [(0, 0), (1, 1), (2, 2)] =
       (false, msgOf (.nonChainable "step"), wStA)) :=
  ⟨c4_chainable_requirement.1 5 wSpecStep wStA 0 (0, 0) (1, 1),
   c4_chainable_requirement.2.1 5 wSpecStep 0 [((0, 0), (1, 1))] wStA "step",
   c4_chainable_requirement.2.2.1 5 wSpecStep 0 (0, 0) (1, 1) [((1, 1), (2, 2))] wStA wStA
     "step" wActStep rfl rfl,
   c4_chainable_requirement.2.2.2 5 wSpecStep wStA 0 [(0, 0), (1, 1), (2, 2)]
     (.nonChainable "step") (by decide) rfl⟩

/-- C7: on coordinate arguments (given as tuples or x/y dicts) `mid_pos`
computes the floor-division midpoint, and it is symmetric in its two
arguments. -/
theorem c7_mid_pos (pf : Nat) (st : GameState) (a b : Value) (ax ay bx byy : Int)
    (ha : coordOf a = some (ax, ay)) (hb : coordOf b = some (bx, byy)) :
    callFunction pf st "mid_pos" [a, b] =
      ⟨.vtuple [.vint (Int.fdiv (ax + bx) 2), .vint (Int.fdiv (ay + byy) 2)], st, false⟩ ∧
    (callFunction pf st "mid_pos" [a, b]).val = (callFunction pf st "mid_pos" [b, a]).val := by
  constructor
  · simp [callFunction, ha, hb]
  · simp [callFunction, ha, hb]
    rw [Int.add_comm ax bx, Int.add_comm ay byy]
    exact ⟨rfl, rfl⟩

/-- Witness for C7: midpoint of the dict (1,2) and the tuple (4,5), in both
argument orders. -/
theorem c7_witness :
    callFunction 3 wStA "mid_pos"
        [.vdict [(.vstr "x", .vint 1), (.vstr "y", .vint 2)], .vtuple [.vint 4, .vint 5]] =
      ⟨.vtuple [.vint (Int.fdiv (1 + 4) 2), .vint (Int.fdiv (2 + 5) 2)], wStA, false⟩ ∧
    (callFunction 3 wStA "mid_pos"
        [.vdict [(.vstr "x", .vint 1), (.vstr "y", .vint 2)], .vtuple [.vint 4, .vint 5]]).val =
    (callFunction 3 wStA "mid_pos"
        [.vtuple [.vint 4, .vint 5], .vdict [(.vstr "x", .vint 1), (.vstr "y", .vint 2)]]).val :=
  c7_mid_pos 3 wStA _ _ 1 2 4 5 rfl rfl

/-- C10: indexing in the expression language is total: in-range integer keys
return the list element, out-of-range or negative keys return null, a
mapping with an absent key returns null, a list indexed by anything that is
not a Python int (bools are ints) returns null, and indexing a value that is
neither a mapping nor a sequence returns null rather than failing. -/
theorem c10_indexing_total (st : GameState) :
    (∀ (xs : List Value) (k : Int), 0 ≤ k → k < (xs.length : Int) →
       indexLookup st (.vlist xs) (.vint k) = (xs.get? k.toNat).getD .vnull) ∧
    (∀ (xs : List Value) (k : Int), k < 0 ∨ (xs.length : Int) ≤ k →
       indexLookup st (.vlist xs) (.vint k) = .vnull) ∧
    (∀ (m : List (Value × Value)) (k : Value), dictGet m k = none →
       indexLookup st (.vdict m) k = .vnull) ∧
    (∀ (xs : List Value) (k : Value), intLike k = false →
       indexLookup st (.vlist xs) k = .vnull) ∧
    (∀ (obj k : Value), mappingOrSeq obj = false → indexLookup st obj k = .vnull) := by
  refine ⟨?_, ?_, ?_, ?_, ?_⟩
  · intro xs k h1 h2
    simp [indexLookup, elemAt, asInt, h1, h2]
  · intro xs k h
    have : ¬(0 ≤ k ∧ k < (xs.length : Int)) := by omega
    simp [indexLookup, elemAt, asInt, this]
  · intro m k h
    simp [indexLookup, h]
  · intro xs k h
    cases k <;> simp_all [intLike, indexLookup, elemAt, asInt]
  · intro obj k h
    cases obj <;> simp_all [mappingOrSeq, indexLookup]

/-- Witness for C10 at concrete inputs: one instance of each clause. -/
theorem c10_witness :
    indexLookup wStA (.vlist [.vint 7, .vint 8]) (.vint 1) =
      (([Value.vint 7, Value.vint 8].get? (1 : Int).toNat).getD .vnull) ∧
    indexLookup wStA (.vlist [.vint 7]) (.vint (-1)) = .vnull ∧
    indexLookup wStA (.vdict [(.vstr "a", .vint 1)]) (.vstr "b") = .vnull ∧
    indexLookup wStA (.vlist [.vint 7]) (.vstr "x") = .vnull ∧
    indexLookup wStA (.vint 5) (.vint 0) = .vnull :=
  ⟨(c10_indexing_total wStA).1 [.vint 7, .vint 8] 1 (by decide) (by decide),
   (c10_indexing_total wStA).2.1 [.vint 7] (-1) (Or.inl (by decide)),
   (c10_indexing_total wStA).2.2.1 [(.vstr "a", .vint 1)] (.vstr "b") rfl,
   (c10_indexing_total wStA).2.2.2.1 [.vint 7] (.vstr "x") rfl,
   (c10_indexing_total wStA).2.2.2.2 (.vint 5) (.vint 0) rfl⟩

/-- Reduction of the `other_player` builtin: the first player in insertion
order not equal to the argument. -/
theorem callFunction_other_player (pf : Nat) (st : GameState) (cur : Value) :
    callFunction pf st "other_player" [cur] =
      ⟨((st.players.find? fun pr => !pyEq (.vplayer pr.1) cur).map
          fun pr => Value.vplayer pr.1).getD .vnull, st, false⟩ := by
  cases hf : st.players.find? fun pr => !pyEq (.vplayer pr.1) cur with
  | none => simp [callFunction, hf]
  | some pr => simp [callFunction, hf]

/-- Reduction of the `next_player` builtin on explicit arguments: modular
rotation through the players in insertion order. -/
theorem callFunction_next_player (pf : Nat) (st : GameState) (cur dirV : Value) :
    callFunction pf st "next_player" [cur, dirV] =
      ⟨(match (st.players.map Prod.fst).findIdx? (fun n => pyEq (.vplayer n) cur) with
        | some i => Value.vplayer ((st.players.map Prod.fst).getD
            ((((i : Int) + (asInt dirV).getD 1).fmod
              ((st.players.map Prod.fst).length : Int)).toNat) "")
        | none => Value.vnull), st, false⟩ := by
  cases hf : (st.players.map Prod.fst).findIdx? fun n => pyEq (.vplayer n) cur with
  | none => simp [callFunction, hf]
  | some i => simp [callFunction, hf]

/-- C5: after a fully successful grid-mode path, the speculative clone
replaces the live state (all components except the current player are the
loop's final clone) and the turn advances: with exactly two players the new
current player is the first player in the mapping not equal to the old one
(`other_player`); otherwise it is `next_player(current, turn_direction)`,
rotating through players in insertion order modularly, with the direction
defaulting to 1 when the `turn_direction` state variable is unset. -/
theorem c5_success_turn_advance (pf : Nat) (spec : GameSpec) (st : GameState) (eid : Nat)
    (path : List (Int × Int)) (msg : String) (st2 : GameState)
    (h : processMovePath pf spec st eid path = (true, msg, st2)) :
    ∃ sim, goSegments pf spec (decide (2 < path.length)) eid (path.zip path.tail) st = .ok sim ∧
      st2.players = sim.players ∧ st2.entities = sim.entities ∧ st2.board = sim.board ∧
      st2.zones = sim.zones ∧ st2.currentPhase = sim.currentPhase ∧
      st2.stateVars = sim.stateVars ∧
      (sim.players.length = 2 →
        st2.currentPlayer =
          ((sim.players.find? fun pr => !pyEq (.vplayer pr.1) sim.currentPlayer).map
            fun pr => Value.vplayer pr.1).getD .vnull) ∧
      (sim.players.length ≠ 2 →
        ∀ i, (sim.players.map Prod.fst).findIdx?
            (fun n => pyEq (.vplayer n) sim.currentPlayer) = some i →
          st2.currentPlayer = .vplayer ((sim.players.map Prod.fst).getD
            ((((i : Int) + turnDir sim).fmod ((sim.players.map Prod.fst).length : Int)).toNat)
            "")) := by
  unfold processMovePath at h
  cases hg : goSegments pf spec (decide (2 < path.length)) eid (path.zip path.tail) st with
  | error e => rw [hg] at h; simp at h
  | ok sim =>
    rw [hg] at h
    have hst2 : st2 = advanceTurn pf sim := by
      have h2 := h
      simp [Prod.ext_iff] at h2
      exact h2.2.symm
    subst hst2
    refine ⟨sim, rfl, ?_⟩
    unfold advanceTurn
    by_cases h2 : sim.players.length == 2
    · rw [if_pos h2]
      refine ⟨rfl, rfl, rfl, rfl, rfl, rfl, fun _ => ?_,
        fun hne => absurd (by simpa using h2) hne⟩
      rw [callFunction_other_player]
    · rw [if_neg h2]
      refine ⟨rfl, rfl, rfl, rfl, rfl, rfl,
        fun he => absurd (by simpa using he) h2, fun _ i hi => ?_⟩
      rw [callFunction_next_player]
      simp only [hi]
      rfl

/-- Witness for C5: a successful two-player step hands the turn from Red to
Black. -/
theorem c5_witness :
    ∃ sim, goSegments 5 wSpecStep (decide (2 < ([(0, 0), (1, 1)] : List (Int × Int)).length)) 0
        ([(0, 0), (1, 1)].zip [(0, 0), (1, 1)].tail) wStA = .ok sim ∧
      ({ wStA with currentPlayer := .vplayer "Black" } : GameState).players = sim.players ∧
      ({ wStA with currentPlayer := .vplayer "Black" } : GameState).entities = sim.entities ∧
      ({ wStA with currentPlayer := .vplayer "Black" } : GameState).board = sim.board ∧
      ({ wStA with currentPlayer := .vplayer "Black" } : GameState).zones = sim.zones ∧
      ({ wStA with currentPlayer := .vplayer "Black" } : GameState).currentPhase =
        sim.currentPhase ∧
      ({ wStA with currentPlayer := .vplayer "Black" } : GameState).stateVars = sim.stateVars ∧
      (sim.players.length = 2 →
        ({ wStA with currentPlayer := .vplayer "Black" } : GameState).currentPlayer =
          ((sim.players.find? fun pr => !pyEq (.vplayer pr.1) sim.currentPlayer).map
            fun pr => Value.vplayer pr.1).getD .vnull) ∧
      (sim.players.length ≠ 2 →
        ∀ i, (sim.players.map Prod.fst).findIdx?
            (fun n => pyEq (.vplayer n) sim.currentPlayer) = some i →
          ({ wStA with currentPlayer := .vplayer "Black" } : GameState).currentPlayer =
            .vplayer ((sim.players.map Prod.fst).getD
              ((((i : Int) + turnDir sim).fmod
                ((sim.players.map Prod.fst).length : Int)).toNat) "")) :=
  c5_success_turn_advance 5 wSpecStep wStA 0 [(0, 0), (1, 1)] "Move successful."
    { wStA with currentPlayer := .vplayer "Black" } rfl

/-- C2 (code bug): the zone invariant — every entity held in a zone is in
the entities table, has `pos` equal to that zone, and is in no other zone —
holds after the setup steps, yet one successful card action whose effects
are the legal `move_to_zone` followed by `remove_entity` leaves the played
card's id inside the discard zone's entity list while deleting it from the
entities table: `remove_entity` (src/game.py lines 896-906) deletes from
`entities` and sweeps the board but never detaches the entity from zones. -/
theorem c2_zone_invariant_code_bug :
    zoneInvariantB c2S0 = true ∧
    (processCardAction 30 c2Spec c2S0 "Alice" 0 .vnull).1 = true ∧
    zoneInvariantB c2S1 = false ∧
    (c2S1.zones.map fun kv => (kv.1, kv.2.entities)) =
      [("alice_hand", []), ("discard", [1, 0])] ∧
    (lookupEntity c2S1 0).isNone = true :=
  ⟨by decide, by decide, by decide, by decide, by decide⟩

/-! Update/lookup interaction lemmas used by the transfer-loop proofs. -/

theorem entLookup_entUpdate (m : List (Nat × Entity)) (i j : Nat) (f : Entity → Entity) :
    entLookup (entUpdate m i f) j =
      if j = i then (entLookup m j).map f else entLookup m j := by
  induction m with
  | nil => simp [entLookup, entUpdate]
  | cons kv rest ih =>
    obtain ⟨k, e⟩ := kv
    by_cases hk : k = i
    · subst hk
      by_cases hj : j = k
      · subst hj
        simp [entLookup, entUpdate]
      · have hkj : ¬k = j := fun h => hj h.symm
        simp [entLookup, entUpdate, hj, hkj]
    · by_cases hj : j = k
      · subst hj
        have hji : ¬j = i := hk
        simp [entLookup, entUpdate, hk, hji]
      · have hkj : ¬k = j := fun h => hj h.symm
        simp [entLookup, entUpdate, hk, hkj, ih]

theorem assocGet_assocUpdate {α : Type} (m : List (String × α)) (k k2 : String) (f : α → α) :
    assocGet (assocUpdate m k f) k2 =
      if k2 = k then (assocGet m k).map f else assocGet m k2 := by
  induction m with
  | nil => simp [assocGet, assocUpdate]
  | cons kv rest ih =>
    obtain ⟨k1, v⟩ := kv
    by_cases hk : k1 = k
    · subst hk
      by_cases hj : k2 = k1
      · subst hj
        simp [assocGet, assocUpdate]
      · have hkj : ¬k1 = k2 := fun h => hj h.symm
        simp [assocGet, assocUpdate, hj, hkj]
    · by_cases hj : k2 = k1
      · subst hj
        have hji : ¬k2 = k := hk
        simp [assocGet, assocUpdate, hk, hji]
      · have hkj : ¬k1 = k2 := fun h => hj h.symm
        simp [assocGet, assocUpdate, hk, hkj, ih]

theorem lookupZone_updateZone (st : GameState) (n m : String) (f : Zone → Zone) :
    lookupZone (updateZone st n f) m =
      if m = n then (lookupZone st n).map f else lookupZone st m :=
  assocGet_assocUpdate st.zones n m f

theorem lookupZone_updateEntity (st : GameState) (i : Nat) (f : Entity → Entity)
    (n : String) : lookupZone (updateEntity st i f) n = lookupZone st n := rfl

theorem lookupEntity_updateZone (st : GameState) (n : String) (f : Zone → Zone) (i : Nat) :
    lookupEntity (updateZone st n f) i = lookupEntity st i := rfl

theorem lookupEntity_updateEntity (st : GameState) (i j : Nat) (f : Entity → Entity) :
    lookupEntity (updateEntity st i f) j =
      if j = i then (lookupEntity st j).map f else lookupEntity st j := by
  unfold lookupEntity updateEntity
  exact entLookup_entUpdate st.entities i j f

/-- Setting `pos` twice is setting it once. -/
theorem posSet_idem (e : Entity) (p : Value) :
    ({ ({ e with pos := p }) with pos := p } : Entity) = { e with pos := p } := rfl

/-- Characterisation of one head-to-tail transfer between distinct zones. -/
theorem transferHead_char (st : GameState) (sn dn : String) (zs zd : Zone) (h : Nat)
    (t : List Nat) (hne : sn ≠ dn) (hs : lookupZone st sn = some zs)
    (hd : lookupZone st dn = some zd) (he : zs.entities = h :: t) :
    lookupZone (transferHead st sn dn) sn = some { zs with entities := t } ∧
    lookupZone (transferHead st sn dn) dn = some { zd with entities := zd.entities ++ [h] } ∧
    (∀ z, z ≠ sn → z ≠ dn → lookupZone (transferHead st sn dn) z = lookupZone st z) ∧
    (∀ id, lookupEntity (transferHead st sn dn) id =
       if id = h then (lookupEntity st id).map (fun e => { e with pos := .vzone dn })
       else lookupEntity st id) := by
  unfold transferHead
  rw [hs]
  dsimp only
  rw [he]
  dsimp only
  refine ⟨?_, ?_, ?_, ?_⟩
  · rw [lookupZone_updateEntity, lookupZone_updateZone, if_neg hne,
      lookupZone_updateZone, if_pos rfl, hs]
    rfl
  · rw [lookupZone_updateEntity, lookupZone_updateZone, if_pos rfl,
      lookupZone_updateZone, if_neg (fun hh => hne hh.symm), hd]
    rfl
  · intro z hzs hzd
    rw [lookupZone_updateEntity, lookupZone_updateZone, if_neg hzd,
      lookupZone_updateZone, if_neg hzs]
  · intro id
    rw [lookupEntity_updateEntity, lookupEntity_updateZone, lookupEntity_updateZone]

/-- Characterisation of the guarded transfer loop between distinct zones
when the requested count is within the source's length: it moves exactly the
first `k` entities of the source, in order, to the destination's tail, and
sets each moved entity's position to the destination zone. -/
theorem drawLoop_char (sn dn : String) (hne : sn ≠ dn) :
    ∀ (k : Nat) (st : GameState) (zs zd : Zone),
      lookupZone st sn = some zs → lookupZone st dn = some zd →
      k ≤ zs.entities.length →
      (drawLoop st sn dn k).2 = zs.entities.take k ∧
      lookupZone (drawLoop st sn dn k).1 sn = some { zs with entities := zs.entities.drop k } ∧
      lookupZone (drawLoop st sn dn k).1 dn =
        some { zd with entities := zd.entities ++ zs.entities.take k } ∧
      (∀ z, z ≠ sn → z ≠ dn → lookupZone (drawLoop st sn dn k).1 z = lookupZone st z) ∧
      (∀ id, lookupEntity (drawLoop st sn dn k).1 id =
        if id ∈ zs.entities.take k then
          (lookupEntity st id).map (fun e => { e with pos := .vzone dn })
        else lookupEntity st id) := by
  intro k
  induction k with
  | zero =>
    intro st zs zd hs hd _
    refine ⟨rfl, ?_, ?_, fun z _ _ => rfl, fun id => ?_⟩
    · simpa [drawLoop] using hs
    · simpa [drawLoop] using hd
    · simp [drawLoop]
  | succ k ih =>
    intro st zs zd hs hd hlen
    cases he : zs.entities with
    | nil => rw [he] at hlen; simp at hlen
    | cons h t =>
      have hstep := transferHead_char st sn dn zs zd h t hne hs hd he
      obtain ⟨hs1, hd1, hfr1, hent1⟩ := hstep
      have hlen2 : k ≤ ({ zs with entities := t } : Zone).entities.length := by
        rw [he] at hlen; simpa using Nat.le_of_succ_le_succ hlen
      have hrec := ih (transferHead st sn dn) { zs with entities := t }
        { zd with entities := zd.entities ++ [h] } hs1 hd1 hlen2
      obtain ⟨hv, hsr, hdr, hfr, hentr⟩ := hrec
      have hgo : drawLoop st sn dn (k + 1) =
          ((drawLoop (transferHead st sn dn) sn dn k).1,
            h :: (drawLoop (transferHead st sn dn) sn dn k).2) := by
        conv_lhs => rw [drawLoop]
        rw [hs]
        dsimp only
        rw [he]
      refine ⟨?_, ?_, ?_, ?_, ?_⟩
      · rw [hgo]
        simp [he, hv]
      · rw [hgo]
        simpa [he] using hsr
      · rw [hgo]
        simpa [he] using hdr
      · intro z hzs hzd
        rw [hgo]
        exact (hfr z hzs hzd).trans (hfr1 z hzs hzd)
      · intro id
        rw [hgo]
        have h1 := hentr id
        have h2 := hent1 id
        dsimp only at h1 ⊢
        rw [h1, h2]
        by_cases hh : id = h
        · subst hh
          by_cases hmem : id ∈ t.take k
          · simp only [hmem, if_pos, List.take_succ_cons, List.mem_cons, true_or, if_true,
              Option.map_map]
            cases lookupEntity st id <;> rfl
          · simp [hmem, List.take_succ_cons]
        · by_cases hmem : id ∈ t.take k <;> simp [hh, hmem, List.take_succ_cons]

/-- C9 counterexample: with `n = -1` and a source zone of two entities the
builtin moves no entities at all, while `min(n, len(src))` is −1; the claim
"moves exactly min(n, length of src)" is false at this input. -/
theorem c9_counterexample :
    pyEq (callFunction 5 zDemoSt "draw_card" [.vzone "A", .vzone "B", .vint (-1)]).val
      (.vlist []) = true ∧
    ((callFunction 5 zDemoSt "draw_card" [.vzone "A", .vzone "B", .vint (-1)]).st.zones.map
      fun kv => (kv.1, kv.2.entities)) = [("A", [10, 11]), ("B", [])] ∧
    min (-1 : Int) ((2 : Nat) : Int) ≠ 0 :=
  ⟨by decide, by decide, by decide⟩

/-- C9 (amended): for distinct zones src and dst, `draw_card(src, dst, n)`
moves exactly `min(n, len(src))` entities when `n ≥ 0` and none when
`n < 0` — uniformly, the first `(min n len).toNat` entities of src — taken
in order from the head of src to the tail of dst, sets each moved entity's
pos to dst, returns the moved entities in order, and never signals an error
when src holds fewer than n entities. -/
theorem c9_draw_card_corrected (pf : Nat) (st : GameState) (sn dn : String) (n : Int)
    (zs zd : Zone) (hne : sn ≠ dn) (hs : lookupZone st sn = some zs)
    (hd : lookupZone st dn = some zd) :
    (callFunction pf st "draw_card" [.vzone sn, .vzone dn, .vint n]).val =
      .vlist ((zs.entities.take (min n (zs.entities.length : Int)).toNat).map .ventity) ∧
    lookupZone (callFunction pf st "draw_card" [.vzone sn, .vzone dn, .vint n]).st sn =
      some { zs with entities := zs.entities.drop (min n (zs.entities.length : Int)).toNat } ∧
    lookupZone (callFunction pf st "draw_card" [.vzone sn, .vzone dn, .vint n]).st dn =
      some { zd with entities :=
        zd.entities ++ zs.entities.take (min n (zs.entities.length : Int)).toNat } ∧
    (∀ id, id ∈ zs.entities.take (min n (zs.entities.length : Int)).toNat →
      lookupEntity (callFunction pf st "draw_card" [.vzone sn, .vzone dn, .vint n]).st id =
        (lookupEntity st id).map fun e => { e with pos := .vzone dn }) ∧
    (0 ≤ n → ((min n (zs.entities.length : Int)).toNat : Int) =
      min n (zs.entities.length : Int)) := by
  have hk : (min n (zs.entities.length : Int)).toNat ≤ zs.entities.length := by omega
  have hch := drawLoop_char sn dn hne (min n (zs.entities.length : Int)).toNat st zs zd
    hs hd hk
  obtain ⟨hv, hsr, hdr, _, hentr⟩ := hch
  have hred : callFunction pf st "draw_card" [.vzone sn, .vzone dn, .vint n] =
      ⟨.vlist (((drawLoop st sn dn (min n (zs.entities.length : Int)).toNat).2).map .ventity),
        (drawLoop st sn dn (min n (zs.entities.length : Int)).toNat).1, true⟩ := by
    simp [callFunction, hs, asInt]
  rw [hred]
  refine ⟨by rw [hv], hsr, hdr, fun id hid => ?_, fun hn => by omega⟩
  rw [hentr id]
  simp [hid]

/-- Witness for C9 at a concrete draw: three requested from a two-card zone
moves both cards. -/
theorem c9_witness :
    (callFunction 5 zDemoSt "draw_card" [.vzone "A", .vzone "B", .vint 3]).val =
      .vlist [.ventity 10, .ventity 11] ∧
    lookupZone (callFunction 5 zDemoSt "draw_card" [.vzone "A", .vzone "B", .vint 3]).st "A" =
      some { zDemoA with entities := [] } ∧
    lookupZone (callFunction 5 zDemoSt "draw_card" [.vzone "A", .vzone "B", .vint 3]).st "B" =
      some { zDemoB with entities := [10, 11] } ∧
    (∀ id, id ∈ ([10, 11] : List Nat) →
      lookupEntity
          (callFunction 5 zDemoSt "draw_card" [.vzone "A", .vzone "B", .vint 3]).st id =
        (lookupEntity zDemoSt id).map fun e => { e with pos := .vzone "B" }) ∧
    (0 ≤ (3 : Int) → ((2 : Nat) : Int) = min (3 : Int) 2) :=
  c9_draw_card_corrected 5 zDemoSt "A" "B" 3 zDemoA zDemoB (by decide) rfl rfl

/-- Characterisation of the `path_clear` scan when the target lies `m` steps
ahead of the current cell along a non-zero delta: with enough fuel it
returns whether all cells from the current one up to (excluding) the target
are empty. -/
theorem pathStep_char (st : GameState) (dx dy : Int) (hd : ¬(dx = 0 ∧ dy = 0)) :
    ∀ (m fuel : Nat) (cx cy : Int), m < fuel →
      pathStep st (cx + m * dx) (cy + m * dy) dx dy fuel cx cy =
        some (((List.range m).map fun i : Nat =>
            (cx + (i : Int) * dx, cy + (i : Int) * dy)).all
          fun p => isNull (boardGetV st (.vtuple [.vint p.1, .vint p.2]))) := by
  intro m
  induction m with
  | zero =>
    intro fuel cx cy hf
    cases fuel with
    | zero => omega
    | succ f => simp [pathStep]
  | succ m ih =>
    intro fuel cx cy hf
    cases fuel with
    | zero => omega
    | succ f =>
      have hne : ¬((cx == cx + ((m : Nat) + 1 : Nat) * dx && cy == cy + ((m : Nat) + 1 : Nat) * dy) = true) := by
        intro hc
        simp only [Bool.and_eq_true, beq_iff_eq] at hc
        obtain ⟨h1, h2⟩ := hc
        have hx0 : (((m : Nat) + 1 : Nat) : Int) * dx = 0 := by omega
        have hy0 : (((m : Nat) + 1 : Nat) : Int) * dy = 0 := by omega
        have hm : (((m : Nat) + 1 : Nat) : Int) ≠ 0 := by push_cast; omega
        exact hd ⟨by rcases mul_eq_zero.mp hx0 with h | h; exact absurd h hm; exact h,
          by rcases mul_eq_zero.mp hy0 with h | h; exact absurd h hm; exact h⟩
      rw [show pathStep st (cx + ((m : Nat) + 1 : Nat) * dx) (cy + ((m : Nat) + 1 : Nat) * dy)
            dx dy (f + 1) cx cy =
          if (cx == cx + ((m : Nat) + 1 : Nat) * dx && cy == cy + ((m : Nat) + 1 : Nat) * dy)
          then some true
          else if !(isNull (boardGetV st (.vtuple [.vint cx, .vint cy]))) then some false
          else pathStep st (cx + ((m : Nat) + 1 : Nat) * dx) (cy + ((m : Nat) + 1 : Nat) * dy)
            dx dy f (cx + dx) (cy + dy) from rfl]
      rw [if_neg (by simpa using hne)]
      by_cases hocc : isNull (boardGetV st (.vtuple [.vint cx, .vint cy]))
      · rw [if_neg (by simp [hocc])]
        have harg : cx + (((m : Nat) + 1 : Nat) : Int) * dx = (cx + dx) + (m : Int) * dx := by
          push_cast; ring
        have harg2 : cy + (((m : Nat) + 1 : Nat) : Int) * dy = (cy + dy) + (m : Int) * dy := by
          push_cast; ring
        rw [harg, harg2, ih f (cx + dx) (cy + dy) (by omega)]
        congr 1
        rw [List.range_succ_eq_map, List.map_cons, List.map_map, List.all_cons]
        simp only [Nat.cast_zero, zero_mul, add_zero, hocc]
        rw [Bool.true_and]
        congr 1
        apply List.map_congr_left
        intro i _
        simp only [Function.comp]
        rw [Prod.mk.injEq]
        push_cast
        exact ⟨by ring, by ring⟩
      · rw [if_pos (by simp [hocc])]
        rw [List.range_succ_eq_map, List.map_cons, List.all_cons]
        simp only [Nat.cast_zero, zero_mul, add_zero]
        rw [Bool.eq_false_iff.mpr hocc, Bool.false_and]

/-- C3 counterexample helper: starting anywhere on the diagonal, the scan
toward the non-collinear target (2,1) on an empty board never returns. -/
theorem pathStep_diverges (c : Int) : ∀ fuel, pathStep wStA 2 1 1 1 fuel c c = none := by
  intro fuel
  induction fuel generalizing c with
  | zero => rfl
  | succ f ih =>
    have hne : ¬((c == (2 : Int) && c == (1 : Int)) = true) := by
      simp only [Bool.and_eq_true, beq_iff_eq]
      rintro ⟨h1, h2⟩
      omega
    rw [show pathStep wStA 2 1 1 1 (f + 1) c c =
        if (c == (2 : Int) && c == (1 : Int)) then some true
        else if !(isNull (boardGetV wStA (.vtuple [.vint c, .vint c]))) then some false
        else pathStep wStA 2 1 1 1 f (c + 1) (c + 1) from rfl]
    rw [if_neg (by simpa using hne)]
    rw [if_neg (by simp [boardGetV, wStA, dictGet, isNull])]
    exact ih (c + 1)

/-- C3 counterexample: the claim says `path_clear` terminates on every pair
and returns false on non-collinear pairs; on the empty board, from (0,0)
toward the non-collinear (2,1), the loop never terminates — no amount of
fuel produces a result, in particular it never returns false. -/
theorem c3_counterexample :
    ¬∃ (fuel : Nat) (r : Bool), pathClearFuel fuel wStA 0 0 2 1 = some r := by
  rintro ⟨fuel, r, h⟩
  have : pathClearFuel fuel wStA 0 0 2 1 = pathStep wStA 2 1 1 1 fuel 1 1 := rfl
  rw [this, pathStep_diverges 1 fuel] at h
  cases h

/-- C3 (amended): when the two coordinates are collinear on one of the 8
compass directions and distinct, `path_clear` terminates (any fuel at least
the Chebyshev distance suffices) and returns true exactly when every
intermediate board cell on the sign-delta line, both endpoints exclusive, is
empty (hence false when any is occupied); on non-collinear pairs over an
empty board the source loop diverges instead of returning false (see the
counterexample). -/
theorem c3_path_clear_terminates_corrected (st : GameState) (sx sy tx ty : Int)
    (fuel n : Nat) (hn : n = max (tx - sx).natAbs (ty - sy).natAbs)
    (hcol : tx - sx = 0 ∨ ty - sy = 0 ∨ (tx - sx).natAbs = (ty - sy).natAbs)
    (hne : ¬(sx = tx ∧ sy = ty)) (hfuel : n ≤ fuel) :
    pathClearFuel fuel st sx sy tx ty =
      some ((interCells sx sy (signTo sx tx) (signTo sy ty) n).all
        fun p => isNull (boardGetV st (.vtuple [.vint p.1, .vint p.2]))) := by
  have hn1 : 1 ≤ n := by
    rcases hcol with h | h | h <;> omega
  have hx : tx = sx + (n : Int) * signTo sx tx := by
    unfold signTo
    split_ifs with h1 h2 <;> rcases hcol with h | h | h <;> omega
  have hy : ty = sy + (n : Int) * signTo sy ty := by
    unfold signTo
    split_ifs with h1 h2 <;> rcases hcol with h | h | h <;> omega
  have hd2 : ¬(signTo sx tx = 0 ∧ signTo sy ty = 0) := by
    rintro ⟨h1, h2⟩
    rw [h1, mul_zero, add_zero] at hx
    rw [h2, mul_zero, add_zero] at hy
    exact hne ⟨hx.symm, hy.symm⟩
  have hstep := pathStep_char st (signTo sx tx) (signTo sy ty) hd2 (n - 1) fuel
    (sx + signTo sx tx) (sy + signTo sy ty) (by omega)
  have hcast : (((n - 1 : Nat)) : Int) = (n : Int) - 1 := by omega
  have hargx : (sx + signTo sx tx) + ((n - 1 : Nat) : Int) * signTo sx tx = tx := by
    rw [hcast]
    conv_rhs => rw [hx]
    ring
  have hargy : (sy + signTo sy ty) + ((n - 1 : Nat) : Int) * signTo sy ty = ty := by
    rw [hcast]
    conv_rhs => rw [hy]
    ring
  rw [hargx, hargy] at hstep
  have hrw : pathClearFuel fuel st sx sy tx ty =
      pathStep st tx ty (signTo sx tx) (signTo sy ty) fuel
        (sx + signTo sx tx) (sy + signTo sy ty) := rfl
  rw [hrw, hstep]
  congr 2
  unfold interCells
  apply List.map_congr_left
  intro i _
  rw [Prod.mk.injEq]
  exact ⟨by ring, by ring⟩

/-- Witness for C3 at a concrete collinear pair: from (0,0) to (3,3) on the
empty board the scan terminates with fuel 10. -/
theorem c3_witness :
    pathClearFuel 10 wStA 0 0 3 3 =
      some ((interCells 0 0 (signTo 0 3) (signTo 0 3) 3).all
        fun p => isNull (boardGetV wStA (.vtuple [.vint p.1, .vint p.2]))) :=
  c3_path_clear_terminates_corrected wStA 0 0 3 3 10 3 (by decide)
    (Or.inr (Or.inr (by decide))) (by decide) (by decide)

/-- A transfer from an empty source zone does nothing. -/
theorem transferHead_empty (st : GameState) (src dst : String) (zs : Zone)
    (hs : lookupZone st src = some zs) (he : zs.entities = []) :
    transferHead st src dst = st := by
  unfold transferHead
  rw [hs]
  dsimp only
  rw [he]

/-- Characterisation of one round of `deal_cards`: each target zone in the
listed order receives one entity from the head of the source (when the
source still has one), and the moved entities get their position updated. -/
theorem dealRound_char (src : String) :
    ∀ (tos : List String) (st : GameState) (zs : Zone),
      tos.Nodup → src ∉ tos →
      lookupZone st src = some zs →
      (∀ t ∈ tos, (lookupZone st t).isSome) →
      lookupZone (dealRound st src tos) src =
        some { zs with entities := zs.entities.drop tos.length } ∧
      (∀ j (hj : j < tos.length) (zt : Zone),
         lookupZone st (tos.get ⟨j, hj⟩) = some zt →
         lookupZone (dealRound st src tos) (tos.get ⟨j, hj⟩) =
           some { zt with entities := zt.entities ++ (zs.entities.get? j).toList }) ∧
      (∀ z, z ≠ src → z ∉ tos → lookupZone (dealRound st src tos) z = lookupZone st z) ∧
      (∀ id, id ∉ zs.entities.take tos.length →
         lookupEntity (dealRound st src tos) id = lookupEntity st id) ∧
      (∀ j (hj : j < tos.length) (id : Nat), zs.entities.get? j = some id →
         zs.entities.Nodup →
         lookupEntity (dealRound st src tos) id =
           (lookupEntity st id).map fun e => { e with pos := .vzone (tos.get ⟨j, hj⟩) }) := by
  intro tos
  induction tos with
  | nil =>
    intro st zs _ _ hs _
    refine ⟨?_, ?_, fun z _ _ => rfl, fun id _ => rfl, ?_⟩
    · simpa [dealRound] using hs
    · intro j hj; simp at hj
    · intro j hj; simp at hj
  | cons t0 rest ih =>
    intro st zs hnd hsrc hs hex
    have hnd0 : t0 ∉ rest := (List.nodup_cons.mp hnd).1
    have hndr : rest.Nodup := (List.nodup_cons.mp hnd).2
    have hne0 : src ≠ t0 := fun h => hsrc (h ▸ List.mem_cons_self t0 rest)
    have hsrcr : src ∉ rest := fun h => hsrc (List.mem_cons_of_mem t0 h)
    obtain ⟨zt0, hzt0⟩ := Option.isSome_iff_exists.mp (hex t0 (List.mem_cons_self t0 rest))
    have hfold : dealRound st src (t0 :: rest) =
        dealRound (transferHead st src t0) src rest := rfl
    cases he : zs.entities with
    | nil =>
      have htr : transferHead st src t0 = st := transferHead_empty st src t0 zs hs he
      have hrec := ih st zs hndr hsrcr hs (fun t ht => hex t (List.mem_cons_of_mem t0 ht))
      obtain ⟨h1, h2, h3, h4, h5⟩ := hrec
      rw [hfold, htr]
      refine ⟨?_, ?_, fun z hz hz2 => h3 z hz (fun h => hz2 (List.mem_cons_of_mem t0 h)),
        fun id hid => h4 id (by simp [he]), ?_⟩
      · rw [h1]
        simp [he]
      · intro j hj zt hzt
        cases j with
        | zero =>
          have : (⟨0, hj⟩ : Fin (t0 :: rest).length).val = 0 := rfl
          have hget : (t0 :: rest).get ⟨0, hj⟩ = t0 := rfl
          rw [hget] at hzt ⊢
          rw [h3 t0 (fun h => hne0 h.symm) hnd0, hzt]
          simp [he]
        | succ i =>
          have hget : (t0 :: rest).get ⟨i + 1, hj⟩ = rest.get ⟨i, by simpa using hj⟩ := rfl
          rw [hget] at hzt ⊢
          rw [h2 i (by simpa using hj) zt hzt]
          simp [he]
      · intro j hj id hid
        simp at hid
    | cons h t =>
      have hstep := transferHead_char st src t0 zs zt0 h t hne0 hs hzt0 he
      obtain ⟨hs1, hd1, hfr1, hent1⟩ := hstep
      have hex1 : ∀ t2 ∈ rest, (lookupZone (transferHead st src t0) t2).isSome := by
        intro t2 ht2
        have hne2 : t2 ≠ src := fun hh => hsrcr (hh ▸ ht2)
        have hne3 : t2 ≠ t0 := fun hh => hnd0 (hh ▸ ht2)
        rw [hfr1 t2 hne2 hne3]
        exact hex t2 (List.mem_cons_of_mem t0 ht2)
      have hrec := ih (transferHead st src t0) { zs with entities := t } hndr hsrcr hs1 hex1
      obtain ⟨h1, h2, h3, h4, h5⟩ := hrec
      rw [hfold]
      refine ⟨?_, ?_, ?_, ?_, ?_⟩
      · rw [h1]
        simp [he]
      · intro j hj zt hzt
        cases j with
        | zero =>
          have hget : (t0 :: rest).get ⟨0, hj⟩ = t0 := rfl
          rw [hget] at hzt ⊢
          rw [hzt] at hzt0
          injection hzt0 with hzz
          subst hzz
          rw [h3 t0 (fun hh => hne0 hh.symm) hnd0, hd1]
          simp [he]
        | succ i =>
          have hget : (t0 :: rest).get ⟨i + 1, hj⟩ = rest.get ⟨i, by simpa using hj⟩ := rfl
          rw [hget] at hzt ⊢
          have hmem : rest.get ⟨i, by simpa using hj⟩ ∈ rest := List.get_mem _ _ _
          have hne2 : rest.get ⟨i, by simpa using hj⟩ ≠ src := fun hh => hsrcr (hh ▸ hmem)
          have hne3 : rest.get ⟨i, by simpa using hj⟩ ≠ t0 := fun hh => hnd0 (hh ▸ hmem)
          have hzt1 : lookupZone (transferHead st src t0)
              (rest.get ⟨i, by simpa using hj⟩) = some zt := by
            rw [hfr1 _ hne2 hne3]; exact hzt
          rw [h2 i (by simpa using hj) zt hzt1]
          simp [he]
      · intro z hz hz2
        have hz0 : z ≠ t0 := fun hh => hz2 (hh ▸ List.mem_cons_self t0 rest)
        have hzr : z ∉ rest := fun hh => hz2 (List.mem_cons_of_mem t0 hh)
        rw [h3 z hz hzr, hfr1 z hz hz0]
      · intro id hid
        simp only [List.length_cons, List.take_succ_cons, List.mem_cons, not_or] at hid
        rw [h4 id (by simpa using hid.2), hent1 id, if_neg hid.1]
      · intro j hj id hget hnodup
        have hnmem : h ∉ t := (List.nodup_cons.mp hnodup).1
        have hndt : t.Nodup := (List.nodup_cons.mp hnodup).2
        cases j with
        | zero =>
          have hgt : (t0 :: rest).get ⟨0, hj⟩ = t0 := rfl
          rw [hgt]
          simp only [List.get?_cons_zero] at hget
          have hid2 : h = id := by injection hget
          have hout : id ∉ t.take rest.length :=
            fun hh => hnmem (hid2.symm ▸ List.mem_of_mem_take hh)
          rw [h4 id (by simpa using hout), hent1 id, if_pos hid2.symm]
        | succ i =>
          have hgt : (t0 :: rest).get ⟨i + 1, hj⟩ = rest.get ⟨i, by simpa using hj⟩ := rfl
          rw [hgt]
          simp only [List.get?_cons_succ] at hget
          have hmemt : id ∈ t := List.get?_mem hget
          have hneh : ¬(id = h) := fun hh => hnmem (hh ▸ hmemt)
          rw [h5 i (by simpa using hj) id (by simpa using hget) hndt, hent1 id, if_neg hneh]

theorem dealtTo_succ (u : List Nat) (L j c : Nat) :
    dealtTo u L j (c + 1) = (u.get? j).toList ++ dealtTo (u.drop L) L j c := by
  unfold dealtTo
  rw [List.range_succ_eq_map, List.filterMap_cons, List.filterMap_map]
  have hcomp : ((fun r : Nat => u.get? (r * L + j)) ∘ Nat.succ) =
      fun r : Nat => (u.drop L).get? (r * L + j) := by
    funext r
    simp only [Function.comp_apply, Nat.succ_eq_add_one]
    rw [List.get?_drop]
    congr 1
    ring
  rw [hcomp]
  simp only [Nat.zero_mul, Nat.zero_add]
  cases u.get? j <;> simp

theorem mem_dealtTo_take (u : List Nat) (L j c : Nat) (hj : j < L) (id : Nat)
    (h : id ∈ dealtTo u L j c) : id ∈ u.take (c * L) := by
  unfold dealtTo at h
  rw [List.mem_filterMap] at h
  obtain ⟨r, hr, hget⟩ := h
  rw [List.mem_range] at hr
  have hstep : r * L + L = (r + 1) * L := (Nat.succ_mul r L).symm
  have hmul : (r + 1) * L ≤ c * L := Nat.mul_le_mul_right L (Nat.succ_le_of_lt hr)
  have hidx : r * L + j < c * L := by omega
  have hts : (u.take (c * L)).get? (r * L + j) = some id := by
    rw [List.get?_take hidx]
    exact hget
  exact List.get?_mem hts

theorem dealLoopN_nil (src : String) (st : GameState) (c : Nat) :
    dealLoopN st src [] c = st := by
  induction c generalizing st with
  | zero => rfl
  | succ c ih => exact ih st

/-- Characterisation of the full `deal_cards` round loop. -/
theorem dealLoopN_char (src : String) (tos : List String) (hnd : tos.Nodup)
    (hsrc : src ∉ tos) :
    ∀ (c : Nat) (st : GameState) (zs : Zone),
      lookupZone st src = some zs →
      (∀ t ∈ tos, (lookupZone st t).isSome) →
      zs.entities.Nodup →
      lookupZone (dealLoopN st src tos c) src =
        some { zs with entities := zs.entities.drop (c * tos.length) } ∧
      (∀ j (hj : j < tos.length) (zt : Zone), lookupZone st (tos.get ⟨j, hj⟩) = some zt →
         lookupZone (dealLoopN st src tos c) (tos.get ⟨j, hj⟩) =
           some { zt with entities := zt.entities ++ dealtTo zs.entities tos.length j c }) ∧
      (∀ id, id ∉ zs.entities.take (c * tos.length) →
         lookupEntity (dealLoopN st src tos c) id = lookupEntity st id) ∧
      (∀ j (hj : j < tos.length) id, id ∈ dealtTo zs.entities tos.length j c →
         lookupEntity (dealLoopN st src tos c) id =
           (lookupEntity st id).map fun e => { e with pos := .vzone (tos.get ⟨j, hj⟩) }) := by
  intro c
  induction c with
  | zero =>
    intro st zs hs hex _
    refine ⟨by simpa [dealLoopN] using hs, ?_, fun id _ => rfl, ?_⟩
    · intro j hj zt hzt
      simpa [dealLoopN, dealtTo] using hzt
    · intro j hj id hid
      simp [dealtTo] at hid
  | succ c ih =>
    intro st zs hs hex hnodup
    obtain ⟨r1, r2, r3, r4, r5⟩ := dealRound_char src tos st zs hnd hsrc hs hex
    have hex1 : ∀ t ∈ tos, (lookupZone (dealRound st src tos) t).isSome := by
      intro t ht
      obtain ⟨⟨j, hj⟩, rfl⟩ := List.mem_iff_get.mp ht
      obtain ⟨zt, hzt⟩ := Option.isSome_iff_exists.mp (hex _ ht)
      rw [r2 j hj zt hzt]
      rfl
    have hnodup1 : (zs.entities.drop tos.length).Nodup :=
      (List.drop_sublist tos.length zs.entities).nodup hnodup
    obtain ⟨i1, i2, i3, i4⟩ := ih (dealRound st src tos)
      { zs with entities := zs.entities.drop tos.length } r1 hex1 (by simpa using hnodup1)
    have hfold : dealLoopN st src tos (c + 1) =
        dealLoopN (dealRound st src tos) src tos c := rfl
    have hdisj : ∀ id, id ∈ zs.entities.take tos.length →
        id ∉ zs.entities.drop tos.length := by
      intro id h1 h2
      have heq := List.take_append_drop tos.length zs.entities
      have hnod2 : (zs.entities.take tos.length ++ zs.entities.drop tos.length).Nodup := by
        rw [heq]; exact hnodup
      exact (List.disjoint_of_nodup_append hnod2) h1 h2
    refine ⟨?_, ?_, ?_, ?_⟩
    · rw [hfold, i1]
      dsimp only
      rw [List.drop_drop]
      have harith : tos.length + c * tos.length = (c + 1) * tos.length := by ring
      rw [harith]
    · intro j hj zt hzt
      rw [hfold, i2 j hj { zt with entities := zt.entities ++ (zs.entities.get? j).toList }
        (r2 j hj zt hzt)]
      dsimp only
      rw [dealtTo_succ, List.append_assoc]
    · intro id hid
      have hsplit : zs.entities.take ((c + 1) * tos.length) =
          zs.entities.take tos.length ++
            (zs.entities.drop tos.length).take (c * tos.length) := by
        rw [← List.take_add]
        congr 1
        ring
      rw [hsplit] at hid
      simp only [List.mem_append, not_or] at hid
      rw [hfold, i3 id (by simpa using hid.2), r4 id hid.1]
    · intro j hj id hid
      rw [dealtTo_succ] at hid
      rw [List.mem_append] at hid
      rcases hid with hid | hid
      · have hget : zs.entities.get? j = some id := by
          cases hg : zs.entities.get? j with
          | none => rw [hg] at hid; simp at hid
          | some a =>
            rw [hg] at hid
            simp at hid
            rw [hid]
        have hmemtake : id ∈ zs.entities.take tos.length := by
          have hgt : (zs.entities.take tos.length).get? j = some id := by
            rw [List.get?_take hj]
            exact hget
          exact List.get?_mem hgt
        have hout : id ∉ (zs.entities.drop tos.length).take (c * tos.length) :=
          fun hh => hdisj id hmemtake (List.mem_of_mem_take hh)
        rw [hfold, i3 id (by simpa using hout), r5 j hj id hget hnodup]
      · have hmemdrop : id ∈ zs.entities.drop tos.length := by
          have hmt := mem_dealtTo_take (zs.entities.drop tos.length) tos.length j c hj id hid
          exact List.mem_of_mem_take hmt
        have houttake : id ∉ zs.entities.take tos.length := fun hh => hdisj id hh hmemdrop
        rw [hfold, i4 j hj id (by simpa using hid), r4 id houttake]

/-- The target-zone filter of the `deal_cards` executor resolves, in order,
exactly the zone names its expressions name, when they all resolve and
exist. -/
theorem dealActive (st : GameState) :
    ∀ (toEs tos : List String) (acc : List String),
      toEs.map (searchCall "zone") = tos.map some →
      (∀ t ∈ tos, (lookupZone st t).isSome) →
      toEs.foldl (fun acc2 e => match searchCall "zone" e with
        | some tn => if (lookupZone st tn).isSome then acc2 ++ [tn] else acc2
        | none => acc2) acc = acc ++ tos := by
  intro toEs
  induction toEs with
  | nil =>
    intro tos acc hmap _
    cases tos with
    | nil => simp
    | cons t ts => simp at hmap
  | cons e rest ih =>
    intro tos acc hmap hex
    cases tos with
    | nil => simp at hmap
    | cons t ts =>
      simp only [List.map_cons, List.cons.injEq] at hmap
      obtain ⟨h1, h2⟩ := hmap
      simp only [List.foldl_cons]
      rw [h1]
      simp only []
      rw [if_pos (hex t (List.mem_cons_self t ts))]
      rw [ih ts (acc ++ [t]) h2 (fun x hx => hex x (List.mem_cons_of_mem t hx))]
      simp

/-- C8: the `deal_cards` setup step performs `count` rounds; in each round
it removes one entity from the head of the source and appends it to the
tail of each target zone in the listed order, updating the moved entity's
pos to the receiving zone, and a transfer is skipped exactly when the
source is empty: target number j ends up with exactly the source elements
at positions j, L+j, 2L+j, ... (those that exist), the source loses its
first count·L entities, untouched entities are unchanged, and the executor
run on `zone('...')` expressions reduces to this loop. -/
theorem c8_deal_cards (st : GameState) (src : String) (tos : List String) (c : Nat)
    (zs : Zone) (hs : lookupZone st src = some zs) (hnd : tos.Nodup) (hsrc : src ∉ tos)
    (hex : ∀ t ∈ tos, (lookupZone st t).isSome) (hnodup : zs.entities.Nodup) :
    lookupZone (dealLoopN st src tos c) src =
      some { zs with entities := zs.entities.drop (c * tos.length) } ∧
    (∀ j (hj : j < tos.length) (zt : Zone), lookupZone st (tos.get ⟨j, hj⟩) = some zt →
       lookupZone (dealLoopN st src tos c) (tos.get ⟨j, hj⟩) =
         some { zt with entities := zt.entities ++ dealtTo zs.entities tos.length j c }) ∧
    (∀ id, id ∉ zs.entities.take (c * tos.length) →
       lookupEntity (dealLoopN st src tos c) id = lookupEntity st id) ∧
    (∀ j (hj : j < tos.length) id, id ∈ dealtTo zs.entities tos.length j c →
       lookupEntity (dealLoopN st src tos c) id =
         (lookupEntity st id).map fun e => { e with pos := .vzone (tos.get ⟨j, hj⟩) }) ∧
    (∀ (srcE : String) (toEs : List String) (cnt : Int),
       searchCall "zone" srcE = some src →
       toEs.map (searchCall "zone") = tos.map some →
       cnt.toNat = c →
       executeSetupStep st (.dealCards srcE toEs cnt) = dealLoopN st src tos c) := by
  obtain ⟨h1, h2, h3, h4⟩ := dealLoopN_char src tos hnd hsrc c st zs hs hex hnodup
  refine ⟨h1, h2, h3, h4, ?_⟩
  intro srcE toEs cnt hsrcE hmap hcnt
  unfold executeSetupStep
  dsimp only
  rw [hsrcE]
  dsimp only
  rw [hs]
  rw [if_pos (show (some zs).isSome = true from rfl)]
  rw [dealActive st toEs tos [] hmap hex]
  simp only [List.nil_append]
  cases tos with
  | nil => simp [dealLoopN_nil]
  | cons t ts =>
    rw [if_neg (by simp)]
    rw [hcnt]

/-- Witness for C8: two round-robin rounds from a three-card deck into two
empty hands deal cards 20 and 22 to the first hand and card 21 to the
second, empty the deck, retarget card 20's position, and agree with the
setup-step executor run on the corresponding `zone('...')` expressions. -/
theorem c8_witness :
    lookupZone (dealLoopN c8WSt "deck" ["h1", "h2"] 2) "deck" =
      some { c8Deck with entities := ([20, 21, 22] : List Nat).drop (2 * 2) } ∧
    lookupZone (dealLoopN c8WSt "deck" ["h1", "h2"] 2) "h1" =
      some { c8H1 with entities := c8H1.entities ++ dealtTo [20, 21, 22] 2 0 2 } ∧
    lookupZone (dealLoopN c8WSt "deck" ["h1", "h2"] 2) "h2" =
      some { c8H2 with entities := c8H2.entities ++ dealtTo [20, 21, 22] 2 1 2 } ∧
    lookupEntity (dealLoopN c8WSt "deck" ["h1", "h2"] 2) 20 =
      (lookupEntity c8WSt 20).map (fun e => { e with pos := .vzone "h1" }) ∧
    executeSetupStep c8WSt
        (.dealCards "zone(\x27deck\x27)" ["zone(\x27h1\x27)", "zone(\x27h2\x27)"] 2) =
      dealLoopN c8WSt "deck" ["h1", "h2"] 2 := by
  obtain ⟨h1, h2, h3, h4, h5⟩ :=
    c8_deal_cards c8WSt "deck" ["h1", "h2"] 2 c8Deck rfl (by decide) (by decide)
      (by decide) (by decide)
  exact ⟨h1, h2 0 (by decide) c8H1 rfl, h2 1 (by decide) c8H2 rfl,
    h4 0 (by decide) 20 (by decide),
    h5 "zone(\x27deck\x27)" ["zone(\x27h1\x27)", "zone(\x27h2\x27)"] 2 (by decide)
      (by decide) rfl⟩

/-- Every builtin other than `shuffle` and `draw_card` (the branches that
set the effect flag) leaves the game state proper unchanged; `random_int`
advances only the RNG tape, which is outside `stCore`. -/
theorem callFunction_stCore (pf : Nat) (st : GameState) (fname : String)
    (args : List Value) :
    (callFunction pf st fname args).eff = false →
    stCore (callFunction pf st fname args).st = stCore st := by
  unfold callFunction
  repeat' split
  all_goals intro h
  all_goals first
    | rfl
    | ((try dsimp only); (repeat' split) <;> rfl)
    | (simp at h)

/-- Argument evaluation threads the state; when no effectful builtin ran,
the state proper is unchanged. -/
theorem evalArgsList_stCore (ev : String → Context → GameState → EvalRes)
    (hev : ∀ e c s, (ev e c s).eff = false → stCore (ev e c s).st = stCore s) :
    ∀ (strs : List String) (ctx : Context) (st : GameState),
      (evalArgsList ev ctx strs st).2.2 = false →
      stCore (evalArgsList ev ctx strs st).2.1 = stCore st := by
  intro strs
  induction strs with
  | nil => intro ctx st _; rfl
  | cons a rest ih =>
    intro ctx st h
    have hb : ((ev a ctx st).eff ||
        (evalArgsList ev ctx rest (ev a ctx st).st).2.2) = false := h
    rw [Bool.or_eq_false_iff] at hb
    have hg : (evalArgsList ev ctx (a :: rest) st).2.1 =
        (evalArgsList ev ctx rest (ev a ctx st).st).2.1 := rfl
    rw [hg]
    exact (ih ctx (ev a ctx st).st hb.2).trans (hev a ctx st hb.1)

/-- The property-chain handler preserves the state proper when its head
evaluation does. -/
theorem getProp_stCore (ev : String → Context → GameState → EvalRes)
    (hev : ∀ e c s, (ev e c s).eff = false → stCore (ev e c s).st = stCore s)
    (path : String) (ctx : Context) (st : GameState)
    (h : (getProp ev path ctx st).eff = false) :
    stCore (getProp ev path ctx st).st = stCore st := by
  unfold getProp at h ⊢
  dsimp only at h ⊢
  split at h
  next hc =>
    rw [if_pos hc]
    exact hev _ _ _ h
  next hc =>
    rw [if_neg hc]
    split at h
    next heq => exact hev _ _ _ h
    next rest heq => exact hev _ _ _ h

/-- The indexing branch preserves the state proper when its sub-evaluations
do. -/
theorem idxBranch_stCore (ev : String → Context → GameState → EvalRes)
    (hev : ∀ e c s, (ev e c s).eff = false → stCore (ev e c s).st = stCore s)
    (expr : String) (ctx : Context) (st : GameState) :
    ∀ r, idxBranch ev expr ctx st = some r → r.eff = false →
      stCore r.st = stCore st := by
  intro r hr h
  unfold idxBranch at hr
  split at hr
  · split at hr
    next heq => simp at hr
    next bs heq =>
      split at hr
      next => simp at hr
      next =>
        dsimp only at hr
        rw [Option.some.injEq] at hr
        subst hr
        split at h
        next hc =>
          rw [if_pos hc]
          exact hev _ _ _ h
        next hc =>
          rw [if_neg hc]
          have hb : ((ev (pyStrip (pySlice expr 0 bs)) ctx st).eff ||
              (ev (pyStrip (pySlice expr (bs + 1) ((lastIdx expr ']').getD 0))) ctx
                (ev (pyStrip (pySlice expr 0 bs)) ctx st).st).eff) = false := h
          rw [Bool.or_eq_false_iff] at hb
          exact (hev _ _ _ hb.2).trans (hev _ _ _ hb.1)
  · simp at hr

/-- The call scan preserves the state proper when argument evaluation and
the invoked builtin do. -/
theorem callScan_stCore (pf : Nat) (ev : String → Context → GameState → EvalRes)
    (hev : ∀ e c s, (ev e c s).eff = false → stCore (ev e c s).st = stCore s)
    (expr : String) (ctx : Context) (st : GameState) :
    ∀ r, callScan pf ev expr ctx st = some r → r.eff = false →
      stCore r.st = stCore st := by
  intro r hr h
  unfold callScan at hr
  split at hr
  · split at hr
    next j i heq =>
      dsimp only at hr
      rw [Option.some.injEq] at hr
      subst hr
      have hb : ((evalArgsList ev ctx (parseArgStrings (pySlice expr (j + 1) i)) st).2.2 ||
          (callFunction pf
            (evalArgsList ev ctx (parseArgStrings (pySlice expr (j + 1) i)) st).2.1
            (pyStrip (pySlice expr 0 j))
            (evalArgsList ev ctx (parseArgStrings (pySlice expr (j + 1) i)) st).1).eff) =
            false := h
      rw [Bool.or_eq_false_iff] at hb
      exact (callFunction_stCore pf _ _ _ hb.2).trans
        (evalArgsList_stCore ev hev (parseArgStrings (pySlice expr (j + 1) i)) ctx st hb.1)
    next heq => simp at hr
  · simp at hr

/-- The paren branch preserves the state proper when its sub-evaluations
do. -/
theorem callBranch_stCore (pf : Nat) (ev : String → Context → GameState → EvalRes)
    (hev : ∀ e c s, (ev e c s).eff = false → stCore (ev e c s).st = stCore s)
    (expr : String) (ctx : Context) (st : GameState) :
    ∀ r, callBranch pf ev expr ctx st = some r → r.eff = false →
      stCore r.st = stCore st := by
  intro r hr h
  unfold callBranch at hr
  split at hr
  · split at hr
    next d heq =>
      split at hr
      next =>
        rw [Option.some.injEq] at hr
        subst hr
        exact getProp_stCore ev hev expr ctx st h
      next => exact callScan_stCore pf ev hev expr ctx st r hr h
    next heq => exact callScan_stCore pf ev hev expr ctx st r hr h
  · simp at hr

/-- The property branch preserves the state proper when its sub-evaluations
do. -/
theorem propBranch_stCore (ev : String → Context → GameState → EvalRes)
    (hev : ∀ e c s, (ev e c s).eff = false → stCore (ev e c s).st = stCore s)
    (expr : String) (ctx : Context) (st : GameState) :
    ∀ r, propBranch ev expr ctx st = some r → r.eff = false →
      stCore r.st = stCore st := by
  intro r hr h
  unfold propBranch at hr
  split at hr
  · rw [Option.some.injEq] at hr
    subst hr
    exact getProp_stCore ev hev expr ctx st h
  · simp at hr

/-- One evaluator layer preserves the state proper when the sub-evaluator
does and no effectful builtin ran. -/
theorem evalCore_stCore (pf : Nat) (ev : String → Context → GameState → EvalRes)
    (hev : ∀ e c s, (ev e c s).eff = false → stCore (ev e c s).st = stCore s)
    (expr0 : String) (ctx : Context) (st : GameState)
    (h : (evalCore pf ev expr0 ctx st).eff = false) :
    stCore (evalCore pf ev expr0 ctx st).st = stCore st := by
  unfold evalCore at h ⊢
  dsimp only at h ⊢
  split at h
  next r heq =>
    exact idxBranch_stCore ev hev (pyStrip expr0) ctx st r heq h
  next heq1 =>
    split at h
    next r heq =>
      exact callBranch_stCore pf ev hev (pyStrip expr0) ctx st r heq h
    next heq2 =>
      split at h
      next r heq =>
        exact propBranch_stCore ev hev (pyStrip expr0) ctx st r heq h
      next heq3 =>
        split at h
        next v heq => rfl
        next heq => rfl

/-- The fueled evaluator preserves the state proper whenever the effect flag
is clear. -/
theorem eval_stCore :
    ∀ (fuel : Nat) (expr : String) (ctx : Context) (st : GameState),
      (eval fuel expr ctx st).eff = false →
      stCore (eval fuel expr ctx st).st = stCore st := by
  intro fuel
  induction fuel with
  | zero => intro expr ctx st _; rfl
  | succ pf ih =>
    intro expr ctx st h
    exact evalCore_stCore pf (fun e c s => eval pf e c s) (fun e c s => ih e c s)
      expr ctx st h

/-- C6: evaluating any expression that does not invoke the builtins
`shuffle` or `draw_card` (the only branches that raise the effect flag)
leaves the game state proper — players, entities, board, zones, current
player, current phase and the state variables — unchanged; `random_int`
consumes only the RNG, which is not part of that state. -/
theorem c6_eval_pure (fuel : Nat) (expr : String) (ctx : Context) (st : GameState)
    (h : (eval fuel expr ctx st).eff = false) :
    stCore (eval fuel expr ctx st).st = stCore st :=
  eval_stCore fuel expr ctx st h

/-- Witness for C6: a nested arithmetic call with a context lookup runs
without the effect flag and leaves the state proper of the two-player grid
state unchanged. -/
theorem c6_witness :
    (eval 5 "add(mul(2, 3), x)" [("x", .vint 4)] wStA).eff = false ∧
    stCore (eval 5 "add(mul(2, 3), x)" [("x", .vint 4)] wStA).st = stCore wStA :=
  ⟨by decide, c6_eval_pure 5 "add(mul(2, 3), x)" [("x", .vint 4)] wStA (by decide)⟩

end GDL
